import Mathlib

/-!
Verification of the continuous-matching / video-call core of the dating-app
backend (files backend/routers/matching.py, continuous_matching.py, video.py
and the data model in backend/database.py), shallowly embedded in Lean.

Machine integers are modelled as Nat/Int, Python floats as rationals,
timestamps as integer seconds, JSON-decoded id lists as List Nat, and
nullable columns as Option.  Fallible route handlers return Except with the
HTTP status code as the error value.  Database tables are Lists of records;
a query returning the first row in table order is List.find?.
-/

namespace DatingApp

/-- Profile row (backend/database.py, class Profile): the fields read by the
compatibility scorer.  Personality traits are 1-10 integers. -/
structure Profile where
  name : String
  age : Int
  extroversion : Int
  openness : Int
  conscientiousness : Int
  agreeableness : Int
  neuroticism : Int
  looking_for : String
  min_age : Int
  max_age : Int
deriving Repr, DecidableEq

/-- Closeness reward for one personality trait, from
calculate_compatibility_score in backend/routers/matching.py:
max(0, 10 - diff) / 10 on the absolute trait difference. -/
def traitCloseness (a b : Int) : ℚ :=
  ((max 0 (10 - |a - b|) : ℤ) : ℚ) / 10

/-- calculate_compatibility_score (backend/routers/matching.py, lines 45-107).
Interests enter as lists of interest names; the source builds the name sets
with set comprehensions, modelled by List.toFinset. -/
def calculate_compatibility_score (user_profile other_profile : Profile)
    (user_interests other_interests : List String) : ℚ :=
  let score : ℚ := 0
  -- 1. Personality traits compatibility (40% weight)
  let personality_score : ℚ :=
    traitCloseness user_profile.extroversion other_profile.extroversion
  let trait_diffs : List (Int × Int) :=
    [(user_profile.openness, other_profile.openness),
     (user_profile.conscientiousness, other_profile.conscientiousness),
     (user_profile.agreeableness, other_profile.agreeableness),
     (user_profile.neuroticism, other_profile.neuroticism)]
  let personality_score :=
    trait_diffs.foldl (fun s d => s + traitCloseness d.1 d.2) personality_score
  let personality_score := (personality_score / 5) * 0.4
  let score := score + personality_score
  -- 2. Shared interests (30% weight)
  let user_interest_names := user_interests.toFinset
  let other_interest_names := other_interests.toFinset
  let interest_score : ℚ :=
    if user_interest_names.Nonempty ∧ other_interest_names.Nonempty then
      let shared_interests := (user_interest_names ∩ other_interest_names).card
      let total_interests := (user_interest_names ∪ other_interest_names).card
      if total_interests > 0 then (shared_interests : ℚ) / total_interests else 0
    else 0
  let score := score + interest_score * 0.3
  -- 3. Age preferences compatibility (20% weight)
  let age_score : ℚ :=
    if user_profile.min_age ≤ other_profile.age ∧
       other_profile.age ≤ user_profile.max_age ∧
       other_profile.min_age ≤ user_profile.age ∧
       user_profile.age ≤ other_profile.max_age then 1.0 else 0.0
  let score := score + age_score * 0.2
  -- 4. Looking for compatibility (10% weight)
  let looking_for_score : ℚ :=
    if user_profile.looking_for = other_profile.looking_for then 1.0
    else if (user_profile.looking_for = "serious" ∨ user_profile.looking_for = "casual") ∧
            (other_profile.looking_for = "serious" ∨ other_profile.looking_for = "casual") then 0.5
    else 0.0
  let score := score + looking_for_score * 0.1
  min 1.0 (max 0.0 score)

/-- Modelled from the spec wording of claim C7: the score as the clamped
weighted sum of four terms - five averaged trait-closeness sub-scores
scaled by 0.4, the interest intersection-over-union ratio scaled by 0.3
(0 if either set is empty), mutual age-window fit scaled by 0.2, and
looking-for intent match scaled by 0.1. -/
def specCompatibilityScore (p q : Profile) (ia ib : List String) : ℚ :=
  let personality_term : ℚ :=
    ((traitCloseness p.extroversion q.extroversion +
      traitCloseness p.openness q.openness +
      traitCloseness p.conscientiousness q.conscientiousness +
      traitCloseness p.agreeableness q.agreeableness +
      traitCloseness p.neuroticism q.neuroticism) / 5) * 0.4
  let sa := ia.toFinset
  let sb := ib.toFinset
  let interest_term : ℚ :=
    if sa = ∅ ∨ sb = ∅ then 0
    else (((sa ∩ sb).card : ℚ) / ((sa ∪ sb).card : ℚ)) * 0.3
  let age_term : ℚ :=
    if p.min_age ≤ q.age ∧ q.age ≤ p.max_age ∧
       q.min_age ≤ p.age ∧ p.age ≤ q.max_age then 0.2 else 0
  let intent_term : ℚ :=
    if p.looking_for = q.looking_for then 0.1
    else if (p.looking_for = "serious" ∨ p.looking_for = "casual") ∧
            (q.looking_for = "serious" ∨ q.looking_for = "casual") then 0.05
    else 0
  min 1 (max 0 (personality_term + interest_term + age_term + intent_term))

lemma clamp01_nonneg (s : ℚ) : 0 ≤ min 1.0 (max 0.0 s) := by
  refine le_min (by norm_num) (le_max_of_le_left (by norm_num))

lemma clamp01_le_one (s : ℚ) : min 1.0 (max 0.0 s) ≤ 1 := by
  have h := min_le_left (1.0 : ℚ) (max 0.0 s)
  have h1 : (1.0 : ℚ) = 1 := by norm_num
  exact le_trans h (le_of_eq h1)

set_option maxHeartbeats 1000000 in
/-- C7: for every pair of profiles and interest lists, the compatibility
score lies in the closed interval from 0 to 1, is deterministic in its
inputs, and equals the spec formula: the five averaged trait-closeness
sub-scores scaled by 0.4, plus interest intersection-over-union scaled by
0.3 (0 when either set is empty), plus mutual age-window fit scaled by 0.2,
plus looking-for intent match scaled by 0.1, clamped to the unit interval. -/
theorem calculate_compatibility_score_correct (p q : Profile) (ia ib : List String) :
    0 ≤ calculate_compatibility_score p q ia ib ∧
    calculate_compatibility_score p q ia ib ≤ 1 ∧
    (∀ p' q' ia' ib', p = p' → q = q' → ia = ia' → ib = ib' →
      calculate_compatibility_score p q ia ib =
        calculate_compatibility_score p' q' ia' ib') ∧
    calculate_compatibility_score p q ia ib = specCompatibilityScore p q ia ib := by
  refine ⟨?_, ?_, ?_, ?_⟩
  · simp only [calculate_compatibility_score]
    exact clamp01_nonneg _
  · simp only [calculate_compatibility_score]
    exact clamp01_le_one _
  · intro p' q' ia' ib' h1 h2 h3 h4
    subst h1; subst h2; subst h3; subst h4; rfl
  · simp only [calculate_compatibility_score, specCompatibilityScore, List.foldl]
    have hne : (ia.toFinset.Nonempty ∧ ib.toFinset.Nonempty) ↔
        ¬(ia.toFinset = ∅ ∨ ib.toFinset = ∅) := by
      simp [not_or, Finset.nonempty_iff_ne_empty]
    by_cases hemp : ia.toFinset = ∅ ∨ ib.toFinset = ∅
    · rw [if_neg (fun hn => (hne.mp hn) hemp), if_pos hemp]
      split_ifs <;> norm_num
    · have hpos : 0 < (ia.toFinset ∪ ib.toFinset).card := by
        rcases (hne.mpr hemp).1 with ⟨x, hx⟩
        exact Finset.card_pos.mpr ⟨x, Finset.mem_union_left _ hx⟩
      rw [if_pos (hne.mpr hemp), if_neg hemp, if_pos hpos]
      generalize (((ia.toFinset ∩ ib.toFinset).card : ℚ) /
        ((ia.toFinset ∪ ib.toFinset).card : ℚ)) = r
      split_ifs <;> norm_num

/-- Concrete profile used to instantiate witnesses. -/
def profileA : Profile :=
  { name := "A", age := 25, extroversion := 5, openness := 6,
    conscientiousness := 7, agreeableness := 5, neuroticism := 4,
    looking_for := "serious", min_age := 20, max_age := 35 }

/-- Concrete profile used to instantiate witnesses. -/
def profileB : Profile :=
  { name := "B", age := 28, extroversion := 7, openness := 5,
    conscientiousness := 6, agreeableness := 6, neuroticism := 5,
    looking_for := "casual", min_age := 21, max_age := 40 }

/-- Witness for C7 at concrete profiles and interest lists. -/
theorem calculate_compatibility_score_correct_witness :
    0 ≤ calculate_compatibility_score profileA profileB ["music"] ["music", "art"] ∧
    calculate_compatibility_score profileA profileB ["music"] ["music", "art"] ≤ 1 ∧
    (∀ p' q' ia' ib', profileA = p' → profileB = q' →
      ["music"] = ia' → ["music", "art"] = ib' →
      calculate_compatibility_score profileA profileB ["music"] ["music", "art"] =
        calculate_compatibility_score p' q' ia' ib') ∧
    calculate_compatibility_score profileA profileB ["music"] ["music", "art"] =
      specCompatibilityScore profileA profileB ["music"] ["music", "art"] :=
  calculate_compatibility_score_correct profileA profileB ["music"] ["music", "art"]

/-- User row (backend/database.py, class User): the activity facet plus the
joined profile and interest names the core reads. -/
structure User where
  id : Nat
  is_active : Bool
  last_active : Option Int
  profile : Option Profile
  interests : List String
deriving Repr, DecidableEq

/-- InstantCallSession row (backend/database.py, class InstantCallSession). -/
structure InstantCallSession where
  id : Nat
  session_id : String
  user1_id : Nat
  user2_id : Nat
  status : String
  call_completed : Bool
  user1_decision : Option String
  user2_decision : Option String
  created_at : Int
deriving Repr, DecidableEq

/-- MatchingSession row (backend/database.py, class MatchingSession).  The
matched_user_ids text column holds a JSON array of user ids, modelled
directly as the decoded list. -/
structure MatchingSession where
  id : Nat
  session_id : String
  user_id : Nat
  status : String
  current_match_id : Option Nat
  matches_made : Nat
  successful_matches : Nat
  min_age : Int
  max_age : Int
  preferred_interests : List String
  matched_user_ids : List Nat
  started_at : Int
  ended_at : Option Int
  last_active : Int
deriving Repr, DecidableEq

/-- Match row (backend/database.py, class Match). -/
structure MatchRow where
  id : Nat
  user_id : Nat
  matched_user_id : Nat
  status : String
  compatibility_score : ℚ
  video_session_id : Option String
  call_completed : Bool
  user_decision : Option String
  matched_user_decision : Option String
  created_at : Int
deriving Repr, DecidableEq

/-- VideoSession row (backend/database.py, class VideoSession). -/
structure VideoSession where
  id : Nat
  session_id : String
  match_id : Option Nat
  started_at : Option Int
  ended_at : Option Int
  duration : Int
  status : String
  created_at : Int
deriving Repr, DecidableEq

/-- The relational state the routers read and write.  Tables are lists in
insertion order; SQLAlchemy query(...).first() is List.find?. -/
structure DB where
  users : List User
  matchingSessions : List MatchingSession
  instantCallSessions : List InstantCallSession
  videoSessions : List VideoSession
  matchRows : List MatchRow
deriving Repr, DecidableEq

/-- Python truthiness of a nullable string column: None and the empty
string are falsy. -/
def pyTruthy : Option String → Bool
  | none => false
  | some s => s ≠ ""

/-- In-place row update by primary key, as SQLAlchemy mutation of a fetched
row followed by commit: every row with the given id is transformed. -/
def updateById (l : List InstantCallSession) (i : Nat)
    (f : InstantCallSession → InstantCallSession) : List InstantCallSession :=
  l.map fun cs => if cs.id = i then f cs else cs

/-- Row lookup by primary key. -/
def findCallSession? (db : DB) (i : Nat) : Option InstantCallSession :=
  db.instantCallSessions.find? fun cs => cs.id = i

/-- Row lookup of a user by primary key. -/
def findUser? (db : DB) (i : Nat) : Option User :=
  db.users.find? fun u => u.id = i

/-- Outcome payload of the call-decision route. -/
inductive CallDecisionOutcome
  | waitingForOther
  | mutualMatch (match_id : Nat)
  | noMutualMatch
deriving Repr, DecidableEq

/-- submit_call_decision (backend/routers/continuous_matching.py, lines
976-1087).  The caller identity is current_user_id; new_match_id and now
stand for the autoincrement key and clock supplied by the database.  Error
values carry the HTTP status code. -/
def submit_call_decision (db : DB) (current_user_id : Nat)
    (call_session_id : Nat) (decision : String)
    (new_match_id : Nat) (now : Int) : Except Nat (DB × CallDecisionOutcome) :=
  match findCallSession? db call_session_id with
  | none => .error 404
  | some call_session =>
    -- Determine which user is making the decision
    if current_user_id = call_session.user1_id ∨
       current_user_id = call_session.user2_id then
      let cs' : InstantCallSession :=
        if current_user_id = call_session.user1_id then
          { call_session with user1_decision := some decision }
        else
          { call_session with user2_decision := some decision }
      let db1 : DB :=
        { db with instantCallSessions :=
            (updateById db.instantCallSessions call_session_id (fun _ => cs')) }
      -- Check if both users have made decisions
      if pyTruthy cs'.user1_decision ∧ pyTruthy cs'.user2_decision then
        if cs'.user1_decision = some "like" ∧ cs'.user2_decision = some "like" then
          match findUser? db1 cs'.user1_id, findUser? db1 cs'.user2_id with
          | some user1, some user2 =>
            match user1.profile, user2.profile with
            | some p1, some p2 =>
              let score := calculate_compatibility_score p1 p2
                user1.interests user2.interests
              let m : MatchRow :=
                { id := new_match_id
                  user_id := cs'.user1_id
                  matched_user_id := cs'.user2_id
                  status := "matched"
                  compatibility_score := score
                  video_session_id := some cs'.session_id
                  call_completed := true
                  user_decision := some "like"
                  matched_user_decision := some "like"
                  created_at := now }
              let db2 : DB :=
                { db1 with
                    matchRows := db1.matchRows ++ [m]
                    matchingSessions := db1.matchingSessions.map fun s =>
                      if s.status = "active" ∧
                         (s.user_id = cs'.user1_id ∨ s.user_id = cs'.user2_id) then
                        { s with successful_matches := s.successful_matches + 1
                                 matches_made := s.matches_made + 1 }
                      else s
                    instantCallSessions :=
                      (updateById db1.instantCallSessions call_session_id
                        (fun cs => { cs with status := "completed" })) }
              .ok (db2, .mutualMatch new_match_id)
            | _, _ => .error 500
          | _, _ => .error 500
        else
          let db2 : DB :=
            { db1 with instantCallSessions :=
                (updateById db1.instantCallSessions call_session_id
                  (fun cs => { cs with status := "completed" })) }
          .ok (db2, .noMutualMatch)
      else
        .ok (db1, .waitingForOther)
    else .error 403

/-- Status of a call session row, looked up by id. -/
def callSessionStatus (db : DB) (i : Nat) : Option String :=
  (findCallSession? db i).map (fun cs => cs.status)

lemma find_updateById (l : List InstantCallSession) (i : Nat)
    (f : InstantCallSession → InstantCallSession)
    (hf : ∀ x, x.id = i → (f x).id = i) :
    (updateById l i f).find? (fun cs => cs.id = i) =
      (l.find? (fun cs => cs.id = i)).map f := by
  induction l with
  | nil => rfl
  | cons head tail ih =>
    by_cases h : head.id = i
    · simp [updateById, List.find?_cons, h, hf head h]
    · simp only [updateById, List.map_cons, if_neg h, List.find?_cons]
      simpa [updateById, h] using ih

lemma find_update_status (l : List InstantCallSession) (i : Nat) (s : String) :
    (updateById l i (fun cs => { cs with status := s })).find?
        (fun cs => cs.id = i) =
      (l.find? (fun cs => cs.id = i)).map (fun cs => { cs with status := s }) :=
  find_updateById l i _ (fun _ hx => hx)

lemma find_update_const (l : List InstantCallSession) (i : Nat)
    (c : InstantCallSession) (hc : c.id = i) :
    (updateById l i (fun _ => c)).find? (fun cs => cs.id = i) =
      (l.find? (fun cs => cs.id = i)).map (fun _ => c) :=
  find_updateById l i _ (fun _ _ => hc)

/-- C1: once both participants of an InstantCallSession have submitted a
post-call decision, submit_call_decision creates a Match exactly when both
decisions equal like, and that Match has status matched and
call_completed true; for any other combination of decisions no Match is
created and the call session is finalized with status completed. -/
theorem submit_call_decision_mutual_iff
    (db : DB) (uid csid : Nat) (d : String) (mid : Nat) (now : Int)
    (cs : InstantCallSession)
    (hfind : findCallSession? db csid = some cs)
    (hpart : uid = cs.user1_id ∨ uid = cs.user2_id)
    (u1 u2 : User) (p1 p2 : Profile)
    (hu1 : findUser? db cs.user1_id = some u1) (hp1 : u1.profile = some p1)
    (hu2 : findUser? db cs.user2_id = some u2) (hp2 : u2.profile = some p2)
    (u1d u2d : Option String)
    (hd1 : u1d = if uid = cs.user1_id then some d else cs.user1_decision)
    (hd2 : u2d = if uid = cs.user1_id then cs.user2_decision else some d)
    (hboth : pyTruthy u1d ∧ pyTruthy u2d) :
    ∀ db' out, submit_call_decision db uid csid d mid now = .ok (db', out) →
      ((∃ m, db'.matchRows = db.matchRows ++ [m] ∧
          m.status = "matched" ∧ m.call_completed = true) ↔
        (u1d = some "like" ∧ u2d = some "like")) ∧
      (¬(u1d = some "like" ∧ u2d = some "like") →
        db'.matchRows = db.matchRows ∧
        callSessionStatus db' csid = some "completed") := by
  intro db' out h
  have hfind' : db.instantCallSessions.find? (fun c => c.id = csid) = some cs :=
    hfind
  have hcsid : cs.id = csid := by
    have := List.find?_some hfind'
    simpa using this
  simp only [findUser?] at hu1 hu2
  simp only [submit_call_decision, hfind, if_pos hpart, findUser?] at h
  by_cases hu : uid = cs.user1_id
  · rw [if_pos hu] at hd1 hd2
    rw [if_pos hu] at h
    simp only [← hd1, ← hd2] at h
    rw [if_pos hboth] at h
    by_cases hA : u1d = some "like" ∧ u2d = some "like"
    · rw [if_pos hA] at h
      simp only [hu1, hu2, hp1, hp2] at h
      simp only [Except.ok.injEq, Prod.mk.injEq] at h
      obtain ⟨hdb, -⟩ := h
      subst hdb
      exact ⟨iff_of_true ⟨_, rfl, rfl, rfl⟩ hA, fun hnA => absurd hA hnA⟩
    · rw [if_neg hA] at h
      simp only [Except.ok.injEq, Prod.mk.injEq] at h
      obtain ⟨hdb, -⟩ := h
      subst hdb
      refine ⟨iff_of_false ?_ hA, fun _ => ⟨rfl, ?_⟩⟩
      · rintro ⟨m, hm, -, -⟩
        have h2 := congrArg List.length hm
        simp at h2
      · simp only [callSessionStatus, findCallSession?]
        rw [find_updateById _ _ _ ?hfa, find_updateById _ _ _ ?hfb, hfind']
        case hfa => exact fun x hx => hx
        case hfb => exact fun x hx => hcsid
        rfl
  · rw [if_neg hu] at hd1 hd2
    rw [if_neg hu] at h
    simp only [← hd1, ← hd2] at h
    rw [if_pos hboth] at h
    by_cases hA : u1d = some "like" ∧ u2d = some "like"
    · rw [if_pos hA] at h
      simp only [hu1, hu2, hp1, hp2] at h
      simp only [Except.ok.injEq, Prod.mk.injEq] at h
      obtain ⟨hdb, -⟩ := h
      subst hdb
      exact ⟨iff_of_true ⟨_, rfl, rfl, rfl⟩ hA, fun hnA => absurd hA hnA⟩
    · rw [if_neg hA] at h
      simp only [Except.ok.injEq, Prod.mk.injEq] at h
      obtain ⟨hdb, -⟩ := h
      subst hdb
      refine ⟨iff_of_false ?_ hA, fun _ => ⟨rfl, ?_⟩⟩
      · rintro ⟨m, hm, -, -⟩
        have h2 := congrArg List.length hm
        simp at h2
      · simp only [callSessionStatus, findCallSession?]
        rw [find_updateById _ _ _ ?hfc, find_updateById _ _ _ ?hfd, hfind']
        case hfc => exact fun x hx => hx
        case hfd => exact fun x hx => hcsid
        rfl

/-- Concrete user used to instantiate witnesses. -/
def userA : User :=
  { id := 1, is_active := true, last_active := some 1000,
    profile := some profileA, interests := ["music"] }

/-- Concrete user used to instantiate witnesses. -/
def userB : User :=
  { id := 2, is_active := true, last_active := some 1100,
    profile := some profileB, interests := ["music", "art"] }

/-- Concrete call session awaiting the second decision. -/
def csC1 : InstantCallSession :=
  { id := 7, session_id := "sess-7", user1_id := 1, user2_id := 2,
    status := "active", call_completed := false,
    user1_decision := some "like", user2_decision := none, created_at := 0 }

/-- Concrete database for the C1 witness. -/
def dbC1 : DB :=
  { users := [userA, userB], matchingSessions := [],
    instantCallSessions := [csC1], videoSessions := [], matchRows := [] }

/-- Result state of the C1 witness call. -/
def resC1 : DB × CallDecisionOutcome :=
  (submit_call_decision dbC1 2 7 "like" 42 5).toOption.getD
    (dbC1, .waitingForOther)

/-- Witness for C1: user 2 answers like on a session where user 1 already
answered like; a matched Match row is appended. -/
theorem submit_call_decision_mutual_iff_witness :
    ((∃ m, resC1.1.matchRows = dbC1.matchRows ++ [m] ∧
        m.status = "matched" ∧ m.call_completed = true) ↔
      ((some "like" : Option String) = some "like" ∧
        (some "like" : Option String) = some "like")) ∧
    (¬(((some "like" : Option String) = some "like") ∧
        ((some "like" : Option String) = some "like")) →
      resC1.1.matchRows = dbC1.matchRows ∧
      callSessionStatus resC1.1 7 = some "completed") :=
  submit_call_decision_mutual_iff dbC1 2 7 "like" 42 5 csC1 rfl (Or.inr rfl)
    userA userB profileA profileB rfl rfl rfl rfl
    (some "like") (some "like") rfl rfl (by decide)
    resC1.1 resC1.2 rfl

/-- Deadlock-prevention query of create_continuous_call_session
(backend/routers/continuous_matching.py, lines 296-305): a session between
the two users in either orientation, created at or after recent_time, with
status waiting or active. -/
def recentWaitingActivePair (a b : Nat) (recent_time : Int)
    (cs : InstantCallSession) : Bool :=
  (((cs.user1_id == a) && (cs.user2_id == b)) ||
    ((cs.user1_id == b) && (cs.user2_id == a))) &&
  (decide (recent_time ≤ cs.created_at)) &&
  ((cs.status == "waiting") || (cs.status == "active"))

/-- create_continuous_call_session (backend/routers/continuous_matching.py,
lines 287-400).  Every control path of the source returns at line 310
(reuse), 359 (fresh creation) or 378 (race recovery), or raises at 381, so
the matching-session bookkeeping at lines 383-400 is dead code and the
matchingSessions table is untouched.  The race-recovery except branch is a
concurrency artifact with no sequential counterpart; new_call_id,
video_session_uuid and new_video_id stand for the generated keys, and the
write to the video_participants join table carries no further state read
by the modelled flows. -/
def create_continuous_call_session (db : DB) (matching_session : MatchingSession)
    (matched_user_id : Nat) (new_call_id : Nat) (video_session_uuid : String)
    (new_video_id : Nat) (now : Int) : InstantCallSession × DB :=
  let user_id := matching_session.user_id
  let recent_time := now - 600
  match db.instantCallSessions.find?
      (recentWaitingActivePair user_id matched_user_id recent_time) with
  | some existing_session => (existing_session, db)
  | none =>
    let user1_id := min user_id matched_user_id
    let user2_id := max user_id matched_user_id
    let call_session : InstantCallSession :=
      { id := new_call_id, session_id := video_session_uuid,
        user1_id := user1_id, user2_id := user2_id, status := "waiting",
        call_completed := false, user1_decision := none,
        user2_decision := none, created_at := now }
    let video_session : VideoSession :=
      { id := new_video_id, session_id := video_session_uuid,
        match_id := none, started_at := none, ended_at := none,
        duration := 180, status := "waiting", created_at := now }
    (call_session,
      { db with
          instantCallSessions := db.instantCallSessions ++ [call_session]
          videoSessions := db.videoSessions ++ [video_session] })

/-- The windowed pair-uniqueness invariant: for every pair of users, at
most one waiting-or-active InstantCallSession created within the 10-minute
window exists. -/
def atMostOneRecentPair (db : DB) (recent_time : Int) : Prop :=
  ∀ a b, (db.instantCallSessions.filter
    (recentWaitingActivePair a b recent_time)).length ≤ 1

lemma recentWaitingActivePair_swap (a b : Nat) (r : Int)
    (cs : InstantCallSession) :
    recentWaitingActivePair a b r cs = recentWaitingActivePair b a r cs := by
  simp only [recentWaitingActivePair]
  rw [Bool.or_comm ((cs.user1_id == a) && (cs.user2_id == b))]

lemma pairMatch_of (u m a b : Nat)
    (hor : (min u m = a ∧ max u m = b) ∨ (min u m = b ∧ max u m = a)) :
    (a = u ∧ b = m) ∨ (a = m ∧ b = u) := by
  rcases le_total u m with h | h
  · rw [min_eq_left h, max_eq_right h] at hor; tauto
  · rw [min_eq_right h, max_eq_left h] at hor; tauto

/-- C2 (amended): create_continuous_call_session reuses an existing recent
waiting-or-active session between the pair and creates nothing new in that
case; otherwise it creates one session storing the participants in
canonical order (lower id first); and it preserves the invariant that each
pair has at most one waiting-or-active session created within the
10-minute window.  Outside that window the uniqueness does not hold, see
the stale-pair counterexample. -/
theorem create_continuous_call_session_correct
    (db : DB) (ms : MatchingSession) (mu cid vid : Nat) (uuid : String)
    (now : Int) (hInv : atMostOneRecentPair db (now - 600)) :
    (∀ cs0,
      db.instantCallSessions.find?
          (recentWaitingActivePair ms.user_id mu (now - 600)) = some cs0 →
      create_continuous_call_session db ms mu cid uuid vid now = (cs0, db)) ∧
    (db.instantCallSessions.find?
        (recentWaitingActivePair ms.user_id mu (now - 600)) = none →
      (create_continuous_call_session db ms mu cid uuid vid now).1.user1_id
          = min ms.user_id mu ∧
      (create_continuous_call_session db ms mu cid uuid vid now).1.user2_id
          = max ms.user_id mu ∧
      (create_continuous_call_session db ms mu cid uuid vid now).1.status
          = "waiting" ∧
      (create_continuous_call_session db ms mu cid uuid vid now).2.instantCallSessions
          = db.instantCallSessions ++
            [(create_continuous_call_session db ms mu cid uuid vid now).1]) ∧
    atMostOneRecentPair
      (create_continuous_call_session db ms mu cid uuid vid now).2 (now - 600) := by
  refine ⟨?_, ?_, ?_⟩
  · intro cs0 hfind
    simp only [create_continuous_call_session, hfind]
  · intro hfind
    simp [create_continuous_call_session, hfind]
  · cases hfind : db.instantCallSessions.find?
        (recentWaitingActivePair ms.user_id mu (now - 600)) with
    | some cs0 =>
      simp only [create_continuous_call_session, hfind]
      exact hInv
    | none =>
      intro a b
      simp only [create_continuous_call_session, hfind, List.filter_append]
      by_cases hn : recentWaitingActivePair a b (now - 600)
          { id := cid, session_id := uuid,
            user1_id := min ms.user_id mu, user2_id := max ms.user_id mu,
            status := "waiting", call_completed := false,
            user1_decision := none, user2_decision := none,
            created_at := now } = true
      · have hfe : db.instantCallSessions.filter
            (recentWaitingActivePair a b (now - 600)) = [] := by
          rw [List.filter_eq_nil_iff]
          intro cs hcs
          have hno := List.find?_eq_none.mp hfind cs hcs
          simp only [recentWaitingActivePair, Bool.and_eq_true, Bool.or_eq_true,
            beq_iff_eq, decide_eq_true_eq] at hn
          obtain ⟨⟨hor, -⟩, -⟩ := hn
          rcases pairMatch_of ms.user_id mu a b hor with ⟨ha, hb⟩ | ⟨ha, hb⟩
          · subst ha; subst hb; exact hno
          · subst ha; subst hb
            rw [recentWaitingActivePair_swap]
            exact hno
        rw [hfe]
        simp [hn]
      · have hn' : recentWaitingActivePair a b (now - 600)
            { id := cid, session_id := uuid,
              user1_id := min ms.user_id mu, user2_id := max ms.user_id mu,
              status := "waiting", call_completed := false,
              user1_decision := none, user2_decision := none,
              created_at := now } = false := by
          simpa using hn
        simpa [hn'] using hInv a b

/-- Matching session of user 1 used in the C2 scenarios. -/
def msC2 : MatchingSession :=
  { id := 1, session_id := "ms-1", user_id := 1, status := "active",
    current_match_id := none, matches_made := 0, successful_matches := 0,
    min_age := 18, max_age := 100, preferred_interests := [],
    matched_user_ids := [], started_at := 0, ended_at := none,
    last_active := 700 }

/-- A waiting call session between users 1 and 2 created outside the
10-minute reuse window. -/
def csStale : InstantCallSession :=
  { id := 10, session_id := "sess-10", user1_id := 1, user2_id := 2,
    status := "waiting", call_completed := false, user1_decision := none,
    user2_decision := none, created_at := 0 }

/-- Database holding only the stale waiting pair session. -/
def dbC2 : DB :=
  { users := [userA, userB], matchingSessions := [msC2],
    instantCallSessions := [csStale], videoSessions := [], matchRows := [] }

/-- Counterexample to C2 as stated: with a waiting session between users 1
and 2 created 700 seconds ago (outside the 10-minute window), a new poll
creates a second waiting session for the same canonical pair, so two
waiting-or-active sessions with canonical ordering (1,2) coexist. -/
theorem create_continuous_call_session_stale_pair_duplicate :
    ((create_continuous_call_session dbC2 msC2 2 11 "sess-11" 21 700).2.instantCallSessions.filter
      (fun cs => (cs.user1_id == 1) && (cs.user2_id == 2) &&
        ((cs.status == "waiting") || (cs.status == "active")))).length = 2 := by
  decide

/-- Database with no call sessions, for the C2 witness. -/
def dbC2b : DB :=
  { users := [userA, userB], matchingSessions := [msC2],
    instantCallSessions := [], videoSessions := [], matchRows := [] }

/-- Witness for the amended C2 at a concrete state: the windowed pair
uniqueness holds before and after a fresh creation. -/
theorem create_continuous_call_session_correct_witness :
    atMostOneRecentPair dbC2b 100 ∧
    atMostOneRecentPair
      (create_continuous_call_session dbC2b msC2 2 11 "sess-11" 21 700).2 100 :=
  ⟨fun a b => by simp [atMostOneRecentPair, dbC2b],
    (create_continuous_call_session_correct dbC2b msC2 2 11 21 "sess-11" 700
      (fun a b => by simp [atMostOneRecentPair, dbC2b])).2.2⟩

/-- start_continuous_matching (backend/routers/continuous_matching.py,
lines 402-467).  Every pre-existing active MatchingSession of the caller is
set to completed (the stale and non-stale branches of the cleanup loop
perform the same mutation), then a fresh active session is inserted with
matched_user_ids equal to the JSON-encoded empty list.  The
InstantCallSession table is not touched.  new_id and session_uuid stand
for the generated keys; last_active takes the server default now. -/
def start_continuous_matching (db : DB) (current_user : User)
    (req_min_age req_max_age : Int) (req_preferred_interests : List String)
    (new_id : Nat) (session_uuid : String) (now : Int) :
    Except Nat (DB × MatchingSession) :=
  if current_user.profile.isNone then .error 400
  else
    let cleaned := db.matchingSessions.map fun s =>
      if s.user_id = current_user.id ∧ s.status = "active" then
        { s with status := "completed", ended_at := some now }
      else s
    let matching_session : MatchingSession :=
      { id := new_id, session_id := session_uuid,
        user_id := current_user.id, status := "active",
        current_match_id := none, matches_made := 0,
        successful_matches := 0, min_age := req_min_age,
        max_age := req_max_age,
        preferred_interests := req_preferred_interests,
        matched_user_ids := [], started_at := now, ended_at := none,
        last_active := now }
    .ok ({ db with matchingSessions := cleaned ++ [matching_session] },
      matching_session)

/-- C8 (amended): start_continuous_matching completes every pre-existing
active MatchingSession of the caller, leaving the caller with exactly one
active session (the fresh one); the fresh session's exclusion list is the
empty list, not a list seeded with the caller's own id (self-exclusion is
applied at candidate-query time instead); and the InstantCallSession table
is left untouched, so in-flight call sessions are not cancelled. -/
theorem start_continuous_matching_correct
    (db : DB) (u : User) (mna mxa : Int) (pis : List String)
    (nid : Nat) (uuid : String) (now : Int) (p : Profile)
    (hprof : u.profile = some p) :
    ∀ db' ms',
      start_continuous_matching db u mna mxa pis nid uuid now = .ok (db', ms') →
      (db'.matchingSessions.filter (fun s =>
          (s.user_id == u.id) && (s.status == "active"))).length = 1 ∧
      ms'.matched_user_ids = [] ∧
      ms'.status = "active" ∧ ms'.user_id = u.id ∧
      db'.instantCallSessions = db.instantCallSessions := by
  intro db' ms' h
  simp only [start_continuous_matching, hprof, Option.isNone_some,
    Bool.false_eq_true, if_false, Except.ok.injEq, Prod.mk.injEq] at h
  obtain ⟨hdb, hms⟩ := h
  subst hdb
  subst hms
  refine ⟨?_, rfl, rfl, rfl, rfl⟩
  rw [List.filter_append]
  have h1 : (db.matchingSessions.map fun s =>
      if s.user_id = u.id ∧ s.status = "active" then
        { s with status := "completed", ended_at := some now }
      else s).filter (fun s =>
        (s.user_id == u.id) && (s.status == "active")) = [] := by
    rw [List.filter_eq_nil_iff]
    intro s hs
    rw [List.mem_map] at hs
    obtain ⟨t, ht, rfl⟩ := hs
    by_cases hc : t.user_id = u.id ∧ t.status = "active"
    · simp [hc]
    · rw [if_neg hc]
      simpa using hc
  rw [h1]
  simp

/-- Result state of the C8 scenario: user 1 restarts matching while an
active session and a waiting call session of theirs exist. -/
def resC8 : DB × MatchingSession :=
  (start_continuous_matching dbC2 userA 18 100 [] 2 "ms-2" 1000).toOption.getD
    (dbC2, msC2)

/-- Counterexample to C8 as stated: after the restart, user 1 still has one
waiting in-flight InstantCallSession (nothing was cancelled), and the fresh
session's exclusion list is empty rather than seeded with the caller's own
id.  The fresh-session invariant of one active session still holds. -/
theorem start_continuous_matching_counterexample :
    (resC8.1.instantCallSessions.filter (fun cs =>
        ((cs.user1_id == 1) || (cs.user2_id == 1)) &&
        ((cs.status == "waiting") || (cs.status == "active")))).length = 1 ∧
    resC8.2.matched_user_ids = [] ∧ ¬ (1 ∈ resC8.2.matched_user_ids) := by
  refine ⟨by decide, by decide, by decide⟩

/-- Witness for the amended C8 at the same concrete state. -/
theorem start_continuous_matching_correct_witness :
    (resC8.1.matchingSessions.filter (fun s =>
        (s.user_id == userA.id) && (s.status == "active"))).length = 1 ∧
    resC8.2.matched_user_ids = [] ∧
    resC8.2.status = "active" ∧ resC8.2.user_id = userA.id ∧
    resC8.1.instantCallSessions = dbC2.instantCallSessions :=
  start_continuous_matching_correct dbC2 userA 18 100 [] 2 "ms-2" 1000
    profileA rfl resC8.1 resC8.2 rfl

/-- One WebRTC signaling message as stored in the webrtc_signals mailbox
(backend/routers/video.py, lines 424-430); the JSON payload is opaque. -/
structure WebRTCSignal where
  type : String
  payload : String
  from_user_id : Nat
  target_user_id : Nat
  timestamp : Int
deriving Repr, DecidableEq

/-- Python dict lookup, for the process-wide keyed stores. -/
def dictGet? {α : Type} [BEq κ] (st : List (κ × α)) (k : κ) : Option α :=
  (st.find? (fun kv => kv.1 == k)).map (fun kv => kv.2)

/-- Python dict assignment: replace the binding in place, or append a
fresh key (dict keys are unique, so at most one binding exists). -/
def dictSet {α : Type} [BEq κ] : List (κ × α) → κ → α → List (κ × α)
  | [], k, v => [(k, v)]
  | x :: xs, k, v => if x.1 == k then (k, v) :: xs else x :: dictSet xs k v

/-- Python del of a dict key. -/
def dictDelete {α : Type} [BEq κ] (st : List (κ × α)) (k : κ) :
    List (κ × α) :=
  st.filter (fun kv => !(kv.1 == k))

/-- The process-wide state of backend/routers/video.py: the database plus
the in-memory webrtc_signals and connected_users module dictionaries. -/
structure VideoState where
  db : DB
  webrtc_signals : List (String × List WebRTCSignal)
  connected_users : List (String × List Nat)
deriving Repr, DecidableEq

/-- Per-user rolling-minute rate counter for the signals endpoint
(backend/routers/video.py, lines 43 and 441-459). -/
structure RateEntry where
  count : Nat
  last_reset : Int
deriving Repr, DecidableEq

/-- Rate-limit bookkeeping of get_webrtc_signals: insert a zero entry for
an unseen caller, reset after more than 60 seconds, reject at 60 requests,
otherwise count the request. -/
def checkRate (rates : List (Nat × RateEntry)) (uid : Nat) (now : Int) :
    Except Nat (List (Nat × RateEntry)) :=
  let entry := (dictGet? rates uid).getD ⟨0, now⟩
  let entry := if now - entry.last_reset > 60 then (⟨0, now⟩ : RateEntry)
    else entry
  if entry.count ≥ 60 then .error 429
  else .ok (dictSet rates uid ⟨entry.count + 1, entry.last_reset⟩)

/-- Shared authorization of the video routes (signal, signals, join-call,
end-call): resolve the two participants of a session, through its Match for
regular sessions and through its InstantCallSession otherwise. -/
def sessionParticipants (db : DB) (session : VideoSession) (sid : String) :
    Except Nat (Nat × Nat) :=
  match session.match_id with
  | some mid =>
    match db.matchRows.find? (fun m => m.id == mid) with
    | none => .error 403
    | some m => .ok (m.user_id, m.matched_user_id)
  | none =>
    match db.instantCallSessions.find? (fun cs => cs.session_id == sid) with
    | none => .error 404
    | some cs => .ok (cs.user1_id, cs.user2_id)

/-- get_webrtc_signals (backend/routers/video.py, lines 434-501): rate
limit, session lookup, participant authorization, then drain the caller's
messages from the session mailbox.  Rate-limit mutations on the rejected
path are not observable through the .ok result and are dropped. -/
def get_webrtc_signals (st : VideoState) (rates : List (Nat × RateEntry))
    (current_user_id : Nat) (session_id : String) (now : Int) :
    Except Nat (VideoState × List (Nat × RateEntry) × List WebRTCSignal) :=
  match checkRate rates current_user_id now with
  | .error e => .error e
  | .ok rates' =>
    match st.db.videoSessions.find? (fun vs => vs.session_id == session_id) with
    | none => .error 404
    | some session =>
      match sessionParticipants st.db session session_id with
      | .error e => .error e
      | .ok (a, b) =>
        if current_user_id = a ∨ current_user_id = b then
          match dictGet? st.webrtc_signals session_id with
          | some msgs =>
            .ok ({ st with webrtc_signals :=
                    (dictSet st.webrtc_signals session_id
                      (msgs.filter (fun m => !(m.target_user_id == current_user_id)))) },
              rates',
              msgs.filter (fun m => m.target_user_id == current_user_id))
          | none => .ok (st, rates', [])
        else .error 403

lemma dictGet?_cons {α : Type} (x : String × α) (xs : List (String × α))
    (k : String) :
    dictGet? (x :: xs) k = if x.1 == k then some x.2 else dictGet? xs k := by
  rw [dictGet?, List.find?_cons]
  by_cases hx : (x.1 == k : Bool)
  · simp [hx]
  · simp [hx, dictGet?]

lemma dictGet?_dictSet_self {α : Type} (st : List (String × α)) (k : String)
    (v : α) : dictGet? (dictSet st k v) k = some v := by
  induction st with
  | nil => simp [dictSet, dictGet?_cons]
  | cons x xs ih =>
    by_cases hx : (x.1 == k : Bool) <;>
      simp [dictSet, hx, dictGet?_cons, ih]

lemma dictGet?_dictSet_other {α : Type} (st : List (String × α))
    (k k' : String) (v : α) (hne : k' ≠ k) :
    dictGet? (dictSet st k v) k' = dictGet? st k' := by
  have hkk : (k == k') = false := by
    simp only [beq_eq_false_iff_ne, ne_eq]
    exact fun hh => hne hh.symm
  induction st with
  | nil => simp [dictSet, dictGet?_cons, hkk, dictGet?]
  | cons x xs ih =>
    by_cases hx : (x.1 == k : Bool)
    · have hx1 : x.1 = k := by simpa using hx
      have hx' : (x.1 == k') = false := by
        rw [hx1]; exact hkk
      simp [dictSet, hx, dictGet?_cons, hkk, hx']
    · simp [dictSet, hx, dictGet?_cons, ih]

lemma dictGet?_dictDelete_self {α : Type} (st : List (String × α))
    (k : String) : dictGet? (dictDelete st k) k = none := by
  induction st with
  | nil => rfl
  | cons x xs ih =>
    by_cases hx : (x.1 == k : Bool) <;>
      simp [dictDelete, List.filter_cons, hx, dictGet?_cons, ih] <;>
      simpa [dictDelete] using ih

lemma filter_target_of_filter_not_target (l : List WebRTCSignal) (uid : Nat) :
    (l.filter (fun m => !(m.target_user_id == uid))).filter
      (fun m => m.target_user_id == uid) = [] := by
  induction l with
  | nil => rfl
  | cons x xs ih =>
    by_cases hx : (x.target_user_id == uid : Bool) <;>
      simp [List.filter_cons, hx, ih]

/-- C9: a successful drain returns exactly the stored messages addressed to
the caller, in order, removes precisely those from the session mailbox
(messages addressed to the other participant stay, other mailboxes and the
database are untouched), and an immediately repeated successful drain by
the same caller returns the empty list. -/
theorem get_webrtc_signals_drain
    (st : VideoState) (rates : List (Nat × RateEntry)) (uid : Nat)
    (sid : String) (now : Int) :
    ∀ st' rates' out,
      get_webrtc_signals st rates uid sid now = .ok (st', rates', out) →
      out = ((dictGet? st.webrtc_signals sid).getD []).filter
          (fun m => m.target_user_id == uid) ∧
      (dictGet? st'.webrtc_signals sid).getD [] =
        ((dictGet? st.webrtc_signals sid).getD []).filter
          (fun m => !(m.target_user_id == uid)) ∧
      (∀ k, k ≠ sid →
        dictGet? st'.webrtc_signals k = dictGet? st.webrtc_signals k) ∧
      st'.db = st.db ∧ st'.connected_users = st.connected_users ∧
      (∀ now2 st'' rates'' out2,
        get_webrtc_signals st' rates' uid sid now2 = .ok (st'', rates'', out2) →
        out2 = []) := by
  intro st' rates' out h
  simp only [get_webrtc_signals] at h
  split at h
  · exact absurd h (by simp)
  split at h
  · exact absurd h (by simp)
  split at h
  · exact absurd h (by simp)
  split at h
  case _ heq =>
    split at h
    case _ msgs hget =>
      simp only [Except.ok.injEq, Prod.mk.injEq] at h
      obtain ⟨hst, hrt, hout⟩ := h
      subst hst; subst hrt; subst hout
      refine ⟨by rw [hget]; rfl, ?_, ?_, rfl, rfl, ?_⟩
      · rw [hget]
        simp only [dictGet?_dictSet_self]
        rfl
      · intro k hk
        exact dictGet?_dictSet_other _ _ _ _ hk
      · intro now2 st'' rates'' out2 h2
        simp only [get_webrtc_signals] at h2
        split at h2
        · exact absurd h2 (by simp)
        split at h2
        · exact absurd h2 (by simp)
        split at h2
        · exact absurd h2 (by simp)
        split at h2
        case _ =>
          split at h2
          case _ msgs2 hget2 =>
            rw [dictGet?_dictSet_self] at hget2
            obtain rfl : msgs.filter (fun m => !(m.target_user_id == uid))
                = msgs2 := by
              exact Option.some.inj hget2
            simp only [Except.ok.injEq, Prod.mk.injEq] at h2
            obtain ⟨-, -, hout2⟩ := h2
            rw [← hout2]
            exact filter_target_of_filter_not_target msgs uid
          case _ hget2 =>
            simp only [Except.ok.injEq, Prod.mk.injEq] at h2
            obtain ⟨-, -, hout2⟩ := h2
            exact hout2.symm
        case _ => exact absurd h2 (by simp)
    case _ hget =>
      simp only [Except.ok.injEq, Prod.mk.injEq] at h
      obtain ⟨hst, hrt, hout⟩ := h
      subst hst; subst hrt; subst hout
      rw [hget]
      refine ⟨rfl, rfl, fun k hk => rfl, rfl, rfl, ?_⟩
      intro now2 st'' rates'' out2 h2
      simp only [get_webrtc_signals] at h2
      split at h2
      · exact absurd h2 (by simp)
      split at h2
      · exact absurd h2 (by simp)
      split at h2
      · exact absurd h2 (by simp)
      split at h2
      case _ =>
        split at h2
        case _ msgs2 hget2 =>
          rw [hget] at hget2
          exact absurd hget2 (by simp)
        case _ =>
          simp only [Except.ok.injEq, Prod.mk.injEq] at h2
          obtain ⟨-, -, hout2⟩ := h2
          exact hout2.symm
      case _ => exact absurd h2 (by simp)
  case _ => exact absurd h (by simp)

/-- Concrete instant call session backing the C9 and C6 scenarios. -/
def csC9 : InstantCallSession :=
  { id := 9, session_id := "sess-9", user1_id := 1, user2_id := 2,
    status := "waiting", call_completed := false, user1_decision := none,
    user2_decision := none, created_at := 0 }

/-- Concrete video session row for the C9 and C6 scenarios. -/
def vsC9 : VideoSession :=
  { id := 30, session_id := "sess-9", match_id := none, started_at := none,
    ended_at := none, duration := 180, status := "waiting", created_at := 0 }

/-- Concrete database for the C9 and C6 scenarios. -/
def dbC9 : DB :=
  { users := [userA, userB], matchingSessions := [],
    instantCallSessions := [csC9], videoSessions := [vsC9], matchRows := [] }

/-- A signaling message addressed to user 1. -/
def sigTo1 : WebRTCSignal :=
  { type := "offer", payload := "sdp-a", from_user_id := 2,
    target_user_id := 1, timestamp := 0 }

/-- A signaling message addressed to user 2. -/
def sigTo2 : WebRTCSignal :=
  { type := "answer", payload := "sdp-b", from_user_id := 1,
    target_user_id := 2, timestamp := 1 }

/-- Concrete process state for the C9 witness. -/
def vstC9 : VideoState :=
  { db := dbC9, webrtc_signals := [("sess-9", [sigTo1, sigTo2])],
    connected_users := [] }

/-- Result of user 1 draining the C9 mailbox. -/
def resC9 : VideoState × List (Nat × RateEntry) × List WebRTCSignal :=
  (get_webrtc_signals vstC9 [] 1 "sess-9" 0).toOption.getD (vstC9, [], [])

/-- Witness for C9: user 1 drains a mailbox holding one message for each
participant. -/
theorem get_webrtc_signals_drain_witness :
    resC9.2.2 = ((dictGet? vstC9.webrtc_signals "sess-9").getD []).filter
        (fun m => m.target_user_id == 1) ∧
    (dictGet? resC9.1.webrtc_signals "sess-9").getD [] =
      ((dictGet? vstC9.webrtc_signals "sess-9").getD []).filter
        (fun m => !(m.target_user_id == 1)) ∧
    (∀ k, k ≠ "sess-9" →
      dictGet? resC9.1.webrtc_signals k = dictGet? vstC9.webrtc_signals k) ∧
    resC9.1.db = vstC9.db ∧ resC9.1.connected_users = vstC9.connected_users ∧
    (∀ now2 st'' rates'' out2,
      get_webrtc_signals resC9.1 resC9.2.1 1 "sess-9" now2 =
        .ok (st'', rates'', out2) → out2 = []) :=
  get_webrtc_signals_drain vstC9 [] 1 "sess-9" 0 resC9.1 resC9.2.1 resC9.2.2 rfl

/-- Old-session cleanup inside end_video_session (backend/routers/video.py,
lines 105-120): keep only the three most recently created completed
sessions of the match, delete the rest.  When the ended session has no
match (instant call), the source query compares match_id with NULL and
matches nothing, so no purge happens there. -/
def purgeOldCompleted (db : DB) (mid : Nat) : DB :=
  let completed := db.videoSessions.filter
    (fun vs => (vs.match_id == some mid) && (vs.status == "completed"))
  let old := (completed.mergeSort
    (fun a b => decide (b.created_at ≤ a.created_at))).drop 3
  let kept := db.videoSessions.filter (fun vs => !(old.contains vs))
  { db with videoSessions := kept }

/-- end_video_session (backend/routers/video.py, lines 83-124): only an
active session is completed; its ended_at is stamped, the owning match (if
any) is marked call_completed, the connected-users entry and the signaling
mailbox of the session are deleted, and old completed sessions of the
match are purged.  session_id is a unique column, so the by-key update
matches the single fetched row. -/
def end_video_session (st : VideoState) (session_id : String) (now : Int) :
    VideoState × Option VideoSession :=
  match st.db.videoSessions.find? (fun vs => vs.session_id == session_id) with
  | none => (st, none)
  | some session =>
    if session.status = "active" then
      let updated : VideoSession :=
        { session with status := "completed", ended_at := some now }
      let newSessions := st.db.videoSessions.map fun vs =>
        if vs.session_id == session_id then
          { vs with status := "completed", ended_at := some now }
        else vs
      let db1 := { st.db with videoSessions := newSessions }
      let newMatches := db1.matchRows.map fun m =>
        if session.match_id = some m.id then
          { m with call_completed := true }
        else m
      let db2 := { db1 with matchRows := newMatches }
      let db3 := match session.match_id with
        | none => db2
        | some mid => purgeOldCompleted db2 mid
      ({ db := db3,
         webrtc_signals := dictDelete st.webrtc_signals session_id,
         connected_users := dictDelete st.connected_users session_id },
        some updated)
    else (st, none)

/-- The deferred auto-end timer waits a hard-coded 60 seconds
(backend/routers/video.py, line 128: await asyncio.sleep(60)). -/
def autoEndDelaySeconds : Int := 60

/-- auto_end_session (backend/routers/video.py, lines 126-140): scheduled
at the waiting-to-active transition, it runs end_video_session on its own
database session when the 60-second delay elapses. -/
def auto_end_session (st : VideoState) (session_id : String)
    (activated_at : Int) : VideoState :=
  (end_video_session st session_id (activated_at + autoEndDelaySeconds)).1

lemma completed_of_mem_endMap (l : List VideoSession) (sid : String) (T : Int)
    (s' : VideoSession)
    (hmem : s' ∈ l.map (fun vs => if vs.session_id == sid then
      { vs with status := "completed", ended_at := some T } else vs))
    (hp : (s'.session_id == sid) = true) :
    s'.status = "completed" ∧ s'.ended_at = some T := by
  rw [List.mem_map] at hmem
  obtain ⟨vs, hvs, rfl⟩ := hmem
  by_cases hk : (vs.session_id == sid : Bool)
  · rw [if_pos hk]
    exact ⟨rfl, rfl⟩
  · rw [if_neg hk] at hp ⊢
    exact absurd hp hk

/-- C6 (amended): if a VideoSession is active when the deferred fire-once
timer scheduled at activation fires - 60 seconds after the
waiting-to-active transition, not after the session's stored fixed
duration - the session transitions to completed with ended_at stamped and
its signaling mailbox entry is removed. -/
theorem auto_end_session_completes
    (st : VideoState) (sid : String) (t : Int) (s : VideoSession)
    (hfind : st.db.videoSessions.find?
      (fun vs => vs.session_id == sid) = some s)
    (hact : s.status = "active") :
    dictGet? (auto_end_session st sid t).webrtc_signals sid = none ∧
    dictGet? (auto_end_session st sid t).connected_users sid = none ∧
    (∀ s', (auto_end_session st sid t).db.videoSessions.find?
        (fun vs => vs.session_id == sid) = some s' →
      s'.status = "completed" ∧
      s'.ended_at = some (t + autoEndDelaySeconds)) := by
  simp only [auto_end_session, end_video_session, hfind, if_pos hact]
  refine ⟨dictGet?_dictDelete_self _ _, dictGet?_dictDelete_self _ _, ?_⟩
  intro s' hfind'
  have hp := List.find?_some hfind'
  have hmem := List.mem_of_find?_eq_some hfind'
  cases hm : s.match_id with
  | none =>
    rw [hm] at hmem
    exact completed_of_mem_endMap _ _ _ _ hmem hp
  | some mid =>
    rw [hm] at hmem
    simp only [purgeOldCompleted] at hmem
    have hmem2 := List.mem_of_mem_filter hmem
    exact completed_of_mem_endMap _ _ _ _ hmem2 hp

/-- Counterexample to C6 as stated: the deferred timer fires a fixed 60
seconds after activation, while the fixed duration stored on every video
session created by the continuous-matching flow is 180 seconds, so the
auto-transition does not wait for the session's fixed duration to elapse. -/
theorem auto_end_delay_ne_session_duration :
    autoEndDelaySeconds = 60 ∧
    (create_continuous_call_session dbC2b msC2 2 11 "sess-11" 21
        700).2.videoSessions.map (fun vs => vs.duration) = [180] ∧
    autoEndDelaySeconds ≠ 180 := by
  decide

/-- Process state with an active instant-call video session, for the C6
witness. -/
def vstC6 : VideoState :=
  { db := { dbC9 with videoSessions :=
      [{ vsC9 with status := "active", started_at := some 10 }] },
    webrtc_signals := [("sess-9", [sigTo1, sigTo2])],
    connected_users := [("sess-9", [1, 2])] }

/-- Witness for the amended C6 at a concrete active session. -/
theorem auto_end_session_completes_witness :
    dictGet? (auto_end_session vstC6 "sess-9" 10).webrtc_signals "sess-9"
        = none ∧
    dictGet? (auto_end_session vstC6 "sess-9" 10).connected_users "sess-9"
        = none ∧
    (∀ s', (auto_end_session vstC6 "sess-9" 10).db.videoSessions.find?
        (fun vs => vs.session_id == "sess-9") = some s' →
      s'.status = "completed" ∧
      s'.ended_at = some (10 + autoEndDelaySeconds)) :=
  auto_end_session_completes vstC6 "sess-9" 10
    { vsC9 with status := "active", started_at := some 10 } rfl rfl

/-- Mutation of the first row matching a query, as SQLAlchemy
query(...).first() followed by an attribute assignment. -/
def updateFirst {α : Type} (p : α → Bool) (f : α → α) : List α → List α
  | [] => []
  | x :: xs => if p x then f x :: xs else x :: updateFirst p f xs

/-- Python set add on the connected-users entry of a session
(backend/routers/video.py, line 763), modelled on a duplicate-free list. -/
def addConnected (l : List Nat) (uid : Nat) : List Nat :=
  if l.contains uid then l else l ++ [uid]

/-- join_video_call (backend/routers/video.py, lines 700-793): authorize
the caller, refresh both participants' active matching sessions for
instant calls, record the caller in the connected-users set of the
session, and when both expected participants are connected while the
session is still waiting, transition it to active, stamp started_at and
start the auto-end timer (the returned flag reports that the timer was
scheduled). -/
def join_video_call (st : VideoState) (current_user_id : Nat)
    (session_id : String) (now : Int) : Except Nat (VideoState × Bool) :=
  match st.db.videoSessions.find? (fun vs => vs.session_id == session_id) with
  | none => .error 404
  | some session =>
    match sessionParticipants st.db session session_id with
    | .error e => .error e
    | .ok (u1, u2) =>
      if current_user_id = u1 ∨ current_user_id = u2 then
        let db0 :=
          match session.match_id with
          | some _ => st.db
          | none =>
            let ms1 := updateFirst
              (fun s => (s.user_id == u1) && (s.status == "active"))
              (fun s => { s with last_active := now }) st.db.matchingSessions
            let ms2 := updateFirst
              (fun s => (s.user_id == u2) && (s.status == "active"))
              (fun s => { s with last_active := now }) ms1
            { st.db with matchingSessions := ms2 }
        let connected := (dictGet? st.connected_users session_id).getD []
        let connected' := addConnected connected current_user_id
        let cu' := dictSet st.connected_users session_id connected'
        if (connected'.contains u1 && connected'.contains u2)
            ∧ session.status = "waiting" then
          let newSessions := db0.videoSessions.map fun vs =>
            if vs.session_id == session_id then
              { vs with status := "active", started_at := some now }
            else vs
          .ok ({ db := { db0 with videoSessions := newSessions },
                 webrtc_signals := st.webrtc_signals,
                 connected_users := cu' }, true)
        else
          .ok ({ db := db0, webrtc_signals := st.webrtc_signals,
                 connected_users := cu' }, false)
      else .error 403

/-- end_video_call (backend/routers/video.py, lines 335-373): authorize,
reject any session whose status is not active with a 400 error, and
otherwise delegate to end_video_session. -/
def end_video_call (st : VideoState) (current_user_id : Nat)
    (session_id : String) (now : Int) :
    Except Nat (VideoState × VideoSession) :=
  match st.db.videoSessions.find? (fun vs => vs.session_id == session_id) with
  | none => .error 404
  | some session =>
    match sessionParticipants st.db session session_id with
    | .error e => .error e
    | .ok (u1, u2) =>
      if current_user_id = u1 ∨ current_user_id = u2 then
        if session.status ≠ "active" then .error 400
        else
          match end_video_session st session_id now with
          | (st', some ended) => .ok (st', ended)
          | (_, none) => .error 500
      else .error 403

/-- get_video_session (backend/routers/video.py, lines 238-333): for an
instant-call session, validate that both participants hold an active
matching session fresh within 30 minutes, refresh the last_active of those
found, and cancel both the call session and the video session when either
participant fails the check; the 410 error is raised after the
cancellation is committed, so the mutated state is returned alongside the
outcome. -/
def get_video_session_check (st : VideoState) (current_user_id : Nat)
    (session_id : String) (now : Int) :
    VideoState × Except Nat VideoSession :=
  match st.db.videoSessions.find? (fun vs => vs.session_id == session_id) with
  | none => (st, .error 404)
  | some session =>
    match session.match_id with
    | some mid =>
      match st.db.matchRows.find? (fun m => m.id = mid) with
      | none => (st, .error 403)
      | some m =>
        if current_user_id = m.user_id ∨ current_user_id = m.matched_user_id
        then (st, .ok session)
        else (st, .error 403)
    | none =>
      match st.db.instantCallSessions.find?
          (fun cs => cs.session_id == session_id) with
      | none => (st, .error 404)
      | some cs =>
        if current_user_id = cs.user1_id ∨ current_user_id = cs.user2_id then
          let active_cutoff := now - 1800
          let fresh1 := fun s : MatchingSession =>
            (s.user_id == cs.user1_id) && (s.status == "active") &&
            decide (active_cutoff ≤ s.last_active)
          let fresh2 := fun s : MatchingSession =>
            (s.user_id == cs.user2_id) && (s.status == "active") &&
            decide (active_cutoff ≤ s.last_active)
          let user1_active := st.db.matchingSessions.find? fresh1
          let user2_active := st.db.matchingSessions.find? fresh2
          let ms1 := updateFirst fresh1
            (fun s => { s with last_active := now }) st.db.matchingSessions
          let ms2 := updateFirst fresh2
            (fun s => { s with last_active := now }) ms1
          let db1 := { st.db with matchingSessions := ms2 }
          if user1_active.isNone ∨ user2_active.isNone then
            let cancelledCalls := db1.instantCallSessions.map fun c =>
              if c.id = cs.id then { c with status := "cancelled" } else c
            let cancelledSessions := db1.videoSessions.map fun vs =>
              if vs.session_id == session_id then
                { vs with status := "cancelled" }
              else vs
            ({ st with db := { db1 with
                instantCallSessions := cancelledCalls,
                videoSessions := cancelledSessions } }, .error 410)
          else ({ st with db := db1 }, .ok session)
        else (st, .error 403)

/-- An operation on a fixed video session, as issued by either client or
the deferred timer. -/
inductive VAction where
  | join (uid : Nat) (now : Int)
  | endCall (uid : Nat) (now : Int)
  | autoEnd (activated_at : Int)
  | check (uid : Nat) (now : Int)
deriving Repr, DecidableEq

/-- Effect of one operation on the process state; a rejected request
leaves the state unchanged. -/
def vstep (sid : String) (st : VideoState) : VAction → VideoState
  | .join uid now =>
    match join_video_call st uid sid now with
    | .ok (st', _) => st'
    | .error _ => st
  | .endCall uid now =>
    match end_video_call st uid sid now with
    | .ok (st', _) => st'
    | .error _ => st
  | .autoEnd t => auto_end_session st sid t
  | .check uid now => (get_video_session_check st uid sid now).1

/-- The video session row of the watched session. -/
def sessionOf (st : VideoState) (sid : String) : Option VideoSession :=
  st.db.videoSessions.find? (fun vs => vs.session_id == sid)

/-- Users currently recorded as joined to the watched session. -/
def connectedOf (st : VideoState) (sid : String) : List Nat :=
  (dictGet? st.connected_users sid).getD []

/-- Lifecycle invariant of a video session between expected participants
e1 and e2: the session_id is unique in the table, the stored participants
stay e1 and e2, a waiting session has no started_at, and an active session
has both expected participants connected and a stamped started_at. -/
def VInv (sid : String) (e1 e2 : Nat) (st : VideoState) : Prop :=
  (st.db.videoSessions.filter
    (fun vs => vs.session_id == sid)).length ≤ 1 ∧
  ∀ s, sessionOf st sid = some s →
    sessionParticipants st.db s sid = .ok (e1, e2) ∧
    (s.status = "waiting" → s.started_at = none) ∧
    (s.status = "active" →
      e1 ∈ connectedOf st sid ∧ e2 ∈ connectedOf st sid ∧
      s.started_at ≠ none)

/-- States reachable from a freshly created waiting session by the video
routes and the deferred timer. -/
inductive VReachable (sid : String) (e1 e2 : Nat) : VideoState → Prop
  | init (st : VideoState)
      (hsess : ∀ s, sessionOf st sid = some s →
        s.status = "waiting" ∧ s.started_at = none ∧
        sessionParticipants st.db s sid = .ok (e1, e2))
      (huniq : (st.db.videoSessions.filter
        (fun vs => vs.session_id == sid)).length ≤ 1)
      (hconn : connectedOf st sid = []) :
      VReachable sid e1 e2 st
  | step (st : VideoState) (a : VAction) :
      VReachable sid e1 e2 st → VReachable sid e1 e2 (vstep sid st a)

lemma find?_map_congr {α : Type} (l : List α) (p : α → Bool) (f : α → α)
    (hf : ∀ x, p (f x) = p x) :
    (l.map f).find? p = (l.find? p).map f := by
  induction l with
  | nil => rfl
  | cons x xs ih =>
    rw [List.map_cons, List.find?_cons, List.find?_cons, hf x]
    cases hpx : p x <;> simp [hpx, ih]

lemma length_filter_map_key {α : Type} (l : List α) (p : α → Bool)
    (f : α → α) (hf : ∀ x, p (f x) = p x) :
    ((l.map f).filter p).length = (l.filter p).length := by
  rw [List.filter_map, List.length_map]
  simp only [Function.comp_def]
  rw [List.filter_congr (fun x _ => hf x)]

lemma length_filter_filter_le {α : Type} (L : List α) (p q : α → Bool) :
    ((L.filter q).filter p).length ≤ (L.filter p).length := by
  induction L with
  | nil => simp
  | cons x xs ih =>
    by_cases hq : q x <;> by_cases hp : p x <;>
      simp [List.filter_cons, hq, hp, -List.filter_filter] <;> omega

lemma mem_of_contains {a : Nat} {l : List Nat} (h : l.contains a = true) :
    a ∈ l := by
  rw [List.contains_iff_exists_mem_beq] at h
  obtain ⟨b, hb, hab⟩ := h
  rw [show a = b from by simpa using hab]
  exact hb

lemma eq_of_mem_filter_length_le_one {α : Type} (l : List α) (p : α → Bool)
    (h : (l.filter p).length ≤ 1) (a b : α) (ha : a ∈ l) (hpa : p a)
    (hb : b ∈ l) (hpb : p b) : a = b := by
  have ha' : a ∈ l.filter p := List.mem_filter.mpr ⟨ha, hpa⟩
  have hb' : b ∈ l.filter p := List.mem_filter.mpr ⟨hb, hpb⟩
  cases hl : l.filter p with
  | nil => rw [hl] at ha'; simp at ha'
  | cons x xs =>
    rw [hl] at ha' hb' h
    have hxs : xs = [] := by
      simp only [List.length_cons] at h
      exact List.eq_nil_of_length_eq_zero (by omega)
    subst hxs
    simp only [List.mem_singleton] at ha' hb'
    rw [ha', hb']

lemma VInv_end_video_session (sid : String) (e1 e2 : Nat) (st : VideoState)
    (T : Int) (hInv : VInv sid e1 e2 st) :
    VInv sid e1 e2 (end_video_session st sid T).1 ∧
    (∀ s s', sessionOf st sid = some s →
      sessionOf (end_video_session st sid T).1 sid = some s' →
      s'.started_at = s.started_at) := by
  obtain ⟨huniq, hrows⟩ := hInv
  cases hfind : st.db.videoSessions.find? (fun vs => vs.session_id == sid) with
  | none =>
    constructor
    · simp only [end_video_session, hfind]
      exact ⟨huniq, hrows⟩
    · intro s s' hs hs'
      simp only [sessionOf, hfind] at hs
      simp at hs
  | some session =>
    have hsess_mem := List.mem_of_find?_eq_some hfind
    have hsess_key := List.find?_some hfind
    obtain ⟨hpart, hwait, hactive⟩ := hrows session hfind
    by_cases hact : session.status = "active"
    case neg =>
      constructor
      · simp only [end_video_session, hfind, if_neg hact]
        exact ⟨huniq, hrows⟩
      · intro s s' hs hs'
        simp only [end_video_session, hfind, if_neg hact] at hs'
        have h2 : s = s' :=
          Option.some.inj ((hs.symm.trans (hs' : sessionOf st sid = some s')))
        rw [← h2]
    case pos =>
      have hkey : ∀ vs : VideoSession,
          ((if vs.session_id == sid then
              { vs with status := "completed", ended_at := some T }
            else vs).session_id == sid) = (vs.session_id == sid) := by
        intro vs
        by_cases h : (vs.session_id == sid : Bool) <;> simp [h]
      have hself : ∀ s', sessionOf (end_video_session st sid T).1 sid = some s' →
          s' = { session with status := "completed", ended_at := some T } := by
        intro s' hs'
        simp only [end_video_session, hfind, if_pos hact] at hs'
        cases hmi : session.match_id with
        | none =>
          simp only [hmi] at hs'
          simp only [sessionOf] at hs'
          rw [find?_map_congr _ _ _ hkey, hfind] at hs'
          have h2 := Option.some.inj hs'
          rw [← h2]
          simp [hsess_key, hmi]
        | some mid =>
          simp only [hmi] at hs'
          simp only [sessionOf, purgeOldCompleted] at hs'
          have hk' := List.find?_some hs'
          have hmem' := List.mem_of_find?_eq_some hs'
          have hmem2 := List.mem_of_mem_filter hmem'
          rw [List.mem_map] at hmem2
          obtain ⟨x, hx, hfx⟩ := hmem2
          have hkx : (x.session_id == sid) = true := by
            rw [← hkey x, hfx]
            exact hk'
          have hxs : x = session :=
            eq_of_mem_filter_length_le_one _ _ huniq x session hx hkx
              hsess_mem hsess_key
          rw [← hfx, hxs]
          simp [hsess_key, hmi]
      constructor
      · constructor
        · simp only [end_video_session, hfind, if_pos hact]
          cases hmi : session.match_id with
          | none =>
            simp only [hmi]
            rw [length_filter_map_key _ _ _ hkey]
            exact huniq
          | some mid =>
            simp only [hmi, purgeOldCompleted]
            refine le_trans (le_trans (length_filter_filter_le _ _ _) ?_) huniq
            rw [length_filter_map_key _ _ _ hkey]
        · intro s' hs'
          have hs'' := hself s' hs'
          subst hs''
          refine ⟨?_, ?_, ?_⟩
          · have hpart' := hpart
            simp only [end_video_session, hfind, if_pos hact]
            simp only [sessionParticipants] at hpart' ⊢
            cases hmi : session.match_id with
            | none =>
              simp only [hmi] at hpart' ⊢
              exact hpart'
            | some mid =>
              simp only [hmi] at hpart'
              simp only [hmi, purgeOldCompleted]
              have hre : List.find? (fun m => m.id == mid)
                    (st.db.matchRows.map (fun m =>
                      if (some mid : Option Nat) = some m.id then
                        { m with call_completed := true } else m))
                  = (st.db.matchRows.find?
                      (fun m => m.id == mid)).map (fun m =>
                      if (some mid : Option Nat) = some m.id then
                        { m with call_completed := true } else m) := by
                apply find?_map_congr
                intro x
                by_cases hc : (some mid : Option Nat) = some x.id <;>
                  simp [hc]
              rw [hre]
              cases hfm : st.db.matchRows.find?
                  (fun m => m.id == mid) with
              | none =>
                rw [hfm] at hpart'
                simp at hpart'
              | some m =>
                rw [hfm] at hpart'
                by_cases hc : mid = m.id <;>
                  simpa [hc] using hpart'
          · intro hw
            simp at hw
          · intro hw
            simp at hw
      · intro s s' hs hs'
        have hss : s = session :=
          Option.some.inj ((hs : sessionOf st sid = some s).symm.trans hfind)
        have hs'' := hself s' hs'
        rw [hss, hs'']

lemma VInv_check (sid : String) (e1 e2 : Nat) (st : VideoState) (uid : Nat)
    (now : Int) (hInv : VInv sid e1 e2 st) :
    VInv sid e1 e2 (get_video_session_check st uid sid now).1 ∧
    (∀ s s', sessionOf st sid = some s →
      sessionOf (get_video_session_check st uid sid now).1 sid = some s' →
      s'.started_at = s.started_at) := by
  obtain ⟨huniq, hrows⟩ := hInv
  cases hfind : st.db.videoSessions.find? (fun vs => vs.session_id == sid) with
  | none =>
    constructor
    · simp only [get_video_session_check, hfind]
      exact ⟨huniq, hrows⟩
    · intro s s' hs hs'
      simp only [sessionOf, hfind] at hs
      simp at hs
  | some session =>
    have hsess_key := List.find?_some hfind
    obtain ⟨hpart, hwait, hactive⟩ := hrows session hfind
    cases hmi : session.match_id with
    | some mid =>
      have hid : (get_video_session_check st uid sid now).1 = st := by
        simp only [get_video_session_check, hfind, hmi]
        cases hfm : st.db.matchRows.find? (fun m => m.id = mid) with
        | none => rfl
        | some m =>
          by_cases hu : uid = m.user_id ∨ uid = m.matched_user_id <;>
            simp [hu]
      rw [hid]
      refine ⟨⟨huniq, hrows⟩, ?_⟩
      intro s s' hs hs'
      have h2 : s = s' := Option.some.inj (hs.symm.trans hs')
      rw [← h2]
    | none =>
      cases hcs : st.db.instantCallSessions.find?
          (fun cs => cs.session_id == sid) with
      | none =>
        have hid : (get_video_session_check st uid sid now).1 = st := by
          simp only [get_video_session_check, hfind, hmi, hcs]
        rw [hid]
        refine ⟨⟨huniq, hrows⟩, ?_⟩
        intro s s' hs hs'
        have h2 : s = s' := Option.some.inj (hs.symm.trans hs')
        rw [← h2]
      | some cs =>
        by_cases hu : uid = cs.user1_id ∨ uid = cs.user2_id
        case neg =>
          have hid : (get_video_session_check st uid sid now).1 = st := by
            simp only [get_video_session_check, hfind, hmi, hcs, if_neg hu]
          rw [hid]
          refine ⟨⟨huniq, hrows⟩, ?_⟩
          intro s s' hs hs'
          have h2 : s = s' := Option.some.inj (hs.symm.trans hs')
          rw [← h2]
        case pos =>
          simp only [get_video_session_check, hfind, hmi, hcs, if_pos hu]
          by_cases hstale :
              (st.db.matchingSessions.find? (fun s =>
                (s.user_id == cs.user1_id) && (s.status == "active") &&
                decide (now - 1800 ≤ s.last_active))).isNone ∨
              (st.db.matchingSessions.find? (fun s =>
                (s.user_id == cs.user2_id) && (s.status == "active") &&
                decide (now - 1800 ≤ s.last_active))).isNone
          case neg =>
            rw [if_neg hstale]
            constructor
            · exact ⟨huniq, hrows⟩
            · intro s s' hs hs'
              have h2 : s = s' := Option.some.inj (hs.symm.trans hs')
              rw [← h2]
          case pos =>
            rw [if_pos hstale]
            have hkeyC : ∀ vs : VideoSession,
                ((if vs.session_id == sid then { vs with status := "cancelled" }
                  else vs).session_id == sid) = (vs.session_id == sid) := by
              intro vs
              by_cases h : (vs.session_id == sid : Bool) <;> simp [h]
            have hfind' : sessionOf
                ({ st with db := { st.db with
                    matchingSessions := updateFirst (fun s =>
                      (s.user_id == cs.user2_id) && (s.status == "active") &&
                      decide (now - 1800 ≤ s.last_active))
                      (fun s => { s with last_active := now })
                      (updateFirst (fun s =>
                        (s.user_id == cs.user1_id) && (s.status == "active") &&
                        decide (now - 1800 ≤ s.last_active))
                        (fun s => { s with last_active := now })
                        st.db.matchingSessions),
                    instantCallSessions := st.db.instantCallSessions.map
                      (fun c => if c.id = cs.id then
                        { c with status := "cancelled" } else c),
                    videoSessions := st.db.videoSessions.map
                      (fun vs => if vs.session_id == sid then
                        { vs with status := "cancelled" } else vs) } } : VideoState)
                sid = some { session with status := "cancelled" } := by
              simp only [sessionOf]
              rw [find?_map_congr _ _ _ hkeyC, hfind]
              have hsk2 : session.session_id = sid := by simpa using hsess_key
              simp [hsk2]
            constructor
            · constructor
              · rw [show (st.db.videoSessions.map
                    (fun vs => if vs.session_id == sid then
                      { vs with status := "cancelled" } else vs)).filter
                      (fun vs => vs.session_id == sid)
                    = (st.db.videoSessions.filter
                      (fun vs => vs.session_id == sid)).map
                      (fun vs => if vs.session_id == sid then
                        { vs with status := "cancelled" } else vs)
                  from by
                    rw [List.filter_map]
                    congr 1
                    apply List.filter_congr
                    intro x _
                    exact hkeyC x]
                rw [List.length_map]
                exact huniq
              · intro s' hs'
                have h2 : s' = { session with status := "cancelled" } :=
                  Option.some.inj ((hfind'.symm.trans hs').symm)
                subst h2
                refine ⟨?_, ?_, ?_⟩
                · simp only [sessionParticipants, hmi]
                  have hkeyI : ∀ c : InstantCallSession,
                      (((if c.id = cs.id then { c with status := "cancelled" }
                        else c).session_id == sid))
                        = ((c.session_id == sid)) := by
                    intro c
                    by_cases h : c.id = cs.id <;> simp [h]
                  rw [find?_map_congr _ _ _ hkeyI, hcs]
                  have hpart' := hpart
                  simp only [sessionParticipants, hmi, hcs] at hpart'
                  by_cases hc : cs.id = cs.id <;> simpa [hc] using hpart'
                · intro hw
                  simp at hw
                · intro hw
                  simp at hw
            · intro s s' hs hs'
              have hss : s = session :=
                Option.some.inj (hs.symm.trans hfind)
              have h2 : s' = { session with status := "cancelled" } :=
                Option.some.inj ((hfind'.symm.trans hs').symm)
              rw [hss, h2]

lemma VInv_join (sid : String) (e1 e2 : Nat) (st : VideoState) (uid : Nat)
    (now : Int) (hInv : VInv sid e1 e2 st) :
    ∀ st' tf, join_video_call st uid sid now = .ok (st', tf) →
      VInv sid e1 e2 st' ∧
      (∀ s s', sessionOf st sid = some s → sessionOf st' sid = some s' →
        (s.started_at ≠ none → s'.started_at = s.started_at) ∧
        (s.started_at = none → s'.started_at ≠ none →
          s.status = "waiting" ∧ s'.status = "active" ∧
          s'.started_at = some now ∧
          e1 ∈ connectedOf st' sid ∧ e2 ∈ connectedOf st' sid)) := by
  obtain ⟨huniq, hrows⟩ := hInv
  intro st' tf h
  simp only [join_video_call] at h
  split at h
  · exact absurd h (by simp)
  case _ session hfind =>
    have hsess_key := List.find?_some hfind
    obtain ⟨hpart, hwait, hactive⟩ := hrows session hfind
    split at h
    · exact absurd h (by simp)
    case _ u1 u2 hpartq =>
      have h12 := hpart.symm.trans hpartq
      simp only [Except.ok.injEq, Prod.mk.injEq] at h12
      obtain ⟨rfl, rfl⟩ := h12
      split at h
      case isFalse => exact absurd h (by simp)
      case isTrue hu =>
        split at h
        case isTrue hcond =>
          simp only [Except.ok.injEq, Prod.mk.injEq] at h
          obtain ⟨hst, -⟩ := h
          subst hst
          have hkeyA : ∀ vs : VideoSession,
              ((if vs.session_id == sid then
                { vs with status := "active", started_at := some now }
                else vs).session_id == sid) = (vs.session_id == sid) := by
            intro vs
            by_cases hx : (vs.session_id == sid : Bool) <;> simp [hx]
          obtain ⟨hcontains, hwaiting⟩ := hcond
          have hstart_none := hwait hwaiting
          have hmem1 : e1 ∈ addConnected
              ((dictGet? st.connected_users sid).getD []) uid := by
            rw [Bool.and_eq_true] at hcontains
            exact mem_of_contains hcontains.1
          have hmem2 : e2 ∈ addConnected
              ((dictGet? st.connected_users sid).getD []) uid := by
            rw [Bool.and_eq_true] at hcontains
            exact mem_of_contains hcontains.2
          cases hmi : session.match_id with
          | some mid =>
            constructor
            · constructor
              · simp only [hmi]
                rw [length_filter_map_key _ _ _ hkeyA]
                exact huniq
              · intro s' hs'
                simp only [hmi, sessionOf] at hs'
                rw [find?_map_congr _ _ _ hkeyA, hfind] at hs'
                have h2 := Option.some.inj hs'
                have hsk2 : session.session_id = sid := by simpa using hsess_key
                rw [← h2]
                simp only [hsk2, beq_self_eq_true, if_true]
                refine ⟨?_, ?_, ?_⟩
                · have hpart' := hpart
                  simp only [sessionParticipants, hmi] at hpart' ⊢
                  exact hpart'
                · intro hw
                  simp at hw
                · intro _
                  refine ⟨?_, ?_, by simp⟩
                  · simp only [hmi, connectedOf, dictGet?_dictSet_self,
                      Option.getD_some]
                    exact hmem1
                  · simp only [hmi, connectedOf, dictGet?_dictSet_self,
                      Option.getD_some]
                    exact hmem2
            · intro s s' hs hs'
              have hss : s = session :=
                Option.some.inj (hs.symm.trans hfind)
              simp only [hmi, sessionOf] at hs'
              rw [find?_map_congr _ _ _ hkeyA, hfind] at hs'
              have h2 := Option.some.inj hs'
              have hsk2 : session.session_id = sid := by simpa using hsess_key
              rw [← h2]
              simp only [hsk2, beq_self_eq_true, if_true]
              constructor
              · intro hne
                rw [hss] at hne
                exact absurd hstart_none hne
              · intro _ _
                refine ⟨by rw [hss]; exact hwaiting, trivial, trivial, ?_, ?_⟩
                · simp only [hmi, connectedOf, dictGet?_dictSet_self,
                    Option.getD_some]
                  exact hmem1
                · simp only [hmi, connectedOf, dictGet?_dictSet_self,
                    Option.getD_some]
                  exact hmem2
          | none =>
            constructor
            · constructor
              · simp only [hmi]
                rw [length_filter_map_key _ _ _ hkeyA]
                exact huniq
              · intro s' hs'
                simp only [hmi, sessionOf] at hs'
                rw [find?_map_congr _ _ _ hkeyA, hfind] at hs'
                have h2 := Option.some.inj hs'
                have hsk2 : session.session_id = sid := by simpa using hsess_key
                rw [← h2]
                simp only [hsk2, beq_self_eq_true, if_true]
                refine ⟨?_, ?_, ?_⟩
                · have hpart' := hpart
                  simp only [sessionParticipants, hmi] at hpart' ⊢
                  exact hpart'
                · intro hw
                  simp at hw
                · intro _
                  refine ⟨?_, ?_, by simp⟩
                  · simp only [hmi, connectedOf, dictGet?_dictSet_self,
                      Option.getD_some]
                    exact hmem1
                  · simp only [hmi, connectedOf, dictGet?_dictSet_self,
                      Option.getD_some]
                    exact hmem2
            · intro s s' hs hs'
              have hss : s = session :=
                Option.some.inj (hs.symm.trans hfind)
              simp only [hmi, sessionOf] at hs'
              rw [find?_map_congr _ _ _ hkeyA, hfind] at hs'
              have h2 := Option.some.inj hs'
              have hsk2 : session.session_id = sid := by simpa using hsess_key
              rw [← h2]
              simp only [hsk2, beq_self_eq_true, if_true]
              constructor
              · intro hne
                rw [hss] at hne
                exact absurd hstart_none hne
              · intro _ _
                refine ⟨by rw [hss]; exact hwaiting, trivial, trivial, ?_, ?_⟩
                · simp only [hmi, connectedOf, dictGet?_dictSet_self,
                    Option.getD_some]
                  exact hmem1
                · simp only [hmi, connectedOf, dictGet?_dictSet_self,
                    Option.getD_some]
                  exact hmem2
        case isFalse hcond =>
          simp only [Except.ok.injEq, Prod.mk.injEq] at h
          obtain ⟨hst, -⟩ := h
          subst hst
          have hconn' : ∀ x, x ∈ connectedOf st sid →
              x ∈ addConnected ((dictGet? st.connected_users sid).getD []) uid := by
            intro x hx
            rw [addConnected]
            by_cases hc : (((dictGet? st.connected_users sid).getD
                []).contains uid : Bool)
            · rw [if_pos hc]
              exact hx
            · rw [if_neg hc]
              exact List.mem_append_left _ hx
          cases hmi : session.match_id with
          | some mid =>
            constructor
            · refine ⟨huniq, ?_⟩
              intro s' hs'
              simp only [hmi, sessionOf] at hs'
              have h2 : s' = session := Option.some.inj (hs'.symm.trans hfind)
              subst h2
              refine ⟨hpart, hwait, fun ha => ?_⟩
              obtain ⟨hm1, hm2, hm3⟩ := hactive ha
              refine ⟨?_, ?_, hm3⟩
              · simp only [hmi, connectedOf, dictGet?_dictSet_self,
                  Option.getD_some]
                exact hconn' e1 hm1
              · simp only [hmi, connectedOf, dictGet?_dictSet_self,
                  Option.getD_some]
                exact hconn' e2 hm2
            · intro s s' hs hs'
              simp only [hmi, sessionOf] at hs'
              have h2 : s = s' := Option.some.inj (hs.symm.trans hs')
              rw [← h2]
              exact ⟨fun _ => rfl, fun h1 h2' => absurd h1 h2'⟩
          | none =>
            constructor
            · refine ⟨huniq, ?_⟩
              intro s' hs'
              simp only [hmi, sessionOf] at hs'
              have h2 : s' = session := Option.some.inj (hs'.symm.trans hfind)
              subst h2
              refine ⟨?_, hwait, fun ha => ?_⟩
              · have hpart' := hpart
                simp only [sessionParticipants, hmi] at hpart' ⊢
                exact hpart'
              · obtain ⟨hm1, hm2, hm3⟩ := hactive ha
                refine ⟨?_, ?_, hm3⟩
                · simp only [hmi, connectedOf, dictGet?_dictSet_self,
                    Option.getD_some]
                  exact hconn' e1 hm1
                · simp only [hmi, connectedOf, dictGet?_dictSet_self,
                    Option.getD_some]
                  exact hconn' e2 hm2
            · intro s s' hs hs'
              simp only [hmi, sessionOf] at hs'
              have h2 : s = s' := Option.some.inj (hs.symm.trans hs')
              rw [← h2]
              exact ⟨fun _ => rfl, fun h1 h2' => absurd h1 h2'⟩

lemma end_video_call_active (sid : String) (e1 e2 : Nat) (st : VideoState)
    (uid : Nat) (now : Int) (hInv : VInv sid e1 e2 st) :
    ∀ st' ended, end_video_call st uid sid now = .ok (st', ended) →
      (∃ s, sessionOf st sid = some s ∧ s.status = "active" ∧
        e1 ∈ connectedOf st sid ∧ e2 ∈ connectedOf st sid) ∧
      st' = (end_video_session st sid now).1 := by
  obtain ⟨huniq, hrows⟩ := hInv
  intro st' ended h
  simp only [end_video_call] at h
  split at h
  · exact absurd h (by simp)
  case _ session hfind =>
    obtain ⟨hpart, hwait, hactive⟩ := hrows session hfind
    split at h
    · exact absurd h (by simp)
    case _ u1 u2 hpartq =>
      split at h
      case isFalse => exact absurd h (by simp)
      case isTrue hu =>
        split at h
        case isTrue hne => exact absurd h (by simp)
        case isFalse hne =>
          have hact : session.status = "active" := not_not.mp hne
          split at h
          case _ st2 ended2 heq =>
            simp only [Except.ok.injEq, Prod.mk.injEq] at h
            obtain ⟨hst, -⟩ := h
            obtain ⟨hm1, hm2, -⟩ := hactive hact
            refine ⟨⟨session, hfind, hact, hm1, hm2⟩, ?_⟩
            rw [← hst, heq]
          case _ heq => exact absurd h (by simp)

/-- C3: from any state reachable from a freshly created waiting video
session, the lifecycle invariant holds (a waiting session has no
started_at; an active session has both expected participants joined and a
stamped started_at); a successful manual end-call requires the session to
be active, hence both participants joined; and across any further
operation, an already-assigned started_at is never reassigned, while a
none-to-some change of started_at happens exactly at a join that takes the
session from waiting to active with both expected participants connected,
stamping the join time. -/
theorem video_session_lifecycle
    (sid : String) (e1 e2 : Nat) (st : VideoState)
    (hreach : VReachable sid e1 e2 st) :
    VInv sid e1 e2 st ∧
    (∀ uid t st' ended, end_video_call st uid sid t = .ok (st', ended) →
      ∃ s, sessionOf st sid = some s ∧ s.status = "active" ∧
        e1 ∈ connectedOf st sid ∧ e2 ∈ connectedOf st sid) ∧
    (∀ a s s', sessionOf st sid = some s →
      sessionOf (vstep sid st a) sid = some s' →
      (s.started_at ≠ none → s'.started_at = s.started_at) ∧
      (s.started_at = none → s'.started_at ≠ none →
        s.status = "waiting" ∧ s'.status = "active" ∧
        ∃ uid t, a = VAction.join uid t ∧ s'.started_at = some t ∧
          e1 ∈ connectedOf (vstep sid st a) sid ∧
          e2 ∈ connectedOf (vstep sid st a) sid)) := by
  have hInv : VInv sid e1 e2 st := by
    induction hreach with
    | init st0 hsess huniq hconn =>
      refine ⟨huniq, fun s hs => ?_⟩
      obtain ⟨hw, hst0, hp⟩ := hsess s hs
      exact ⟨hp, fun _ => hst0,
        fun ha => absurd (hw.symm.trans ha) (by decide)⟩
    | step st0 a hr ih =>
      cases a with
      | join uid t =>
        cases hj : join_video_call st0 uid sid t with
        | error e => simpa [vstep, hj] using ih
        | ok p =>
          obtain ⟨st1, tf⟩ := p
          have h2 := (VInv_join sid e1 e2 st0 uid t ih st1 tf hj).1
          simpa [vstep, hj] using h2
      | endCall uid t =>
        cases he : end_video_call st0 uid sid t with
        | error e => simpa [vstep, he] using ih
        | ok p =>
          obtain ⟨st1, ended⟩ := p
          have h2 := (end_video_call_active sid e1 e2 st0 uid t ih
            st1 ended he).2
          have h3 := (VInv_end_video_session sid e1 e2 st0 t ih).1
          simp only [vstep, he]
          rw [h2]
          exact h3
      | autoEnd t =>
        exact (VInv_end_video_session sid e1 e2 st0
          (t + autoEndDelaySeconds) ih).1
      | check uid t =>
        exact (VInv_check sid e1 e2 st0 uid t ih).1
  refine ⟨hInv, ?_, ?_⟩
  · intro uid t st' ended h
    exact (end_video_call_active sid e1 e2 st uid t hInv st' ended h).1
  · intro a s s' hs hs'
    cases a with
    | join uid t =>
      cases hj : join_video_call st uid sid t with
      | error e =>
        simp only [vstep, hj] at hs'
        have h2 : s = s' := Option.some.inj (hs.symm.trans hs')
        subst h2
        exact ⟨fun _ => rfl, fun h1 h2' => absurd h1 h2'⟩
      | ok p =>
        obtain ⟨st1, tf⟩ := p
        have hq := (VInv_join sid e1 e2 st uid t hInv st1 tf hj).2 s s' hs
          (by simpa [vstep, hj] using hs')
        simp only [vstep, hj]
        refine ⟨hq.1, fun h1 h2' => ?_⟩
        obtain ⟨hw, hact, hsome, hm1, hm2⟩ := hq.2 h1 h2'
        exact ⟨hw, hact, uid, t, rfl, hsome, hm1, hm2⟩
    | endCall uid t =>
      cases he : end_video_call st uid sid t with
      | error e =>
        simp only [vstep, he] at hs'
        have h2 : s = s' := Option.some.inj (hs.symm.trans hs')
        subst h2
        exact ⟨fun _ => rfl, fun h1 h2' => absurd h1 h2'⟩
      | ok p =>
        obtain ⟨st1, ended⟩ := p
        have hst1 := (end_video_call_active sid e1 e2 st uid t hInv
          st1 ended he).2
        have hs'' : sessionOf (end_video_session st sid t).1 sid
            = some s' := by
          rw [← hst1]
          simpa [vstep, he] using hs'
        have heq := (VInv_end_video_session sid e1 e2 st t hInv).2 s s' hs hs''
        exact ⟨fun _ => heq, fun h1 h2' => absurd (heq.trans h1) h2'⟩
    | autoEnd t =>
      have hs'' : sessionOf
          (end_video_session st sid (t + autoEndDelaySeconds)).1 sid
          = some s' := hs'
      have heq := (VInv_end_video_session sid e1 e2 st
        (t + autoEndDelaySeconds) hInv).2 s s' hs hs''
      exact ⟨fun _ => heq, fun h1 h2' => absurd (heq.trans h1) h2'⟩
    | check uid t =>
      have heq := (VInv_check sid e1 e2 st uid t hInv).2 s s' hs hs'
      exact ⟨fun _ => heq, fun h1 h2' => absurd (heq.trans h1) h2'⟩

/-- Witness for C3 at the concrete initial state: a freshly created
waiting instant-call session between users 1 and 2. -/
theorem video_session_lifecycle_witness :
    VInv "sess-9" 1 2 vstC9 ∧
    (∀ uid t st' ended, end_video_call vstC9 uid "sess-9" t = .ok (st', ended) →
      ∃ s, sessionOf vstC9 "sess-9" = some s ∧ s.status = "active" ∧
        1 ∈ connectedOf vstC9 "sess-9" ∧ 2 ∈ connectedOf vstC9 "sess-9") ∧
    (∀ a s s', sessionOf vstC9 "sess-9" = some s →
      sessionOf (vstep "sess-9" vstC9 a) "sess-9" = some s' →
      (s.started_at ≠ none → s'.started_at = s.started_at) ∧
      (s.started_at = none → s'.started_at ≠ none →
        s.status = "waiting" ∧ s'.status = "active" ∧
        ∃ uid t, a = VAction.join uid t ∧ s'.started_at = some t ∧
          1 ∈ connectedOf (vstep "sess-9" vstC9 a) "sess-9" ∧
          2 ∈ connectedOf (vstep "sess-9" vstC9 a) "sess-9")) :=
  video_session_lifecycle "sess-9" 1 2 vstC9
    (VReachable.init vstC9
      (fun s hs => by
        have h2 : vsC9 = s := Option.some.inj hs
        rw [← h2]
        exact ⟨rfl, rfl, rfl⟩)
      (by decide) rfl)

/-- Result dictionary of check_bidirectional_exclusion
(backend/routers/continuous_matching.py, lines 133-141); derived entries
such as can_match are computed from these four fields. -/
structure ExclusionStatus where
  user1_has_active_session : Bool
  user2_has_active_session : Bool
  user1_excludes_user2 : Bool
  user2_excludes_user1 : Bool
deriving Repr, DecidableEq

/-- Active matching session of a user refreshed within the 5-minute
window, as queried by check_bidirectional_exclusion (lines 95-113). -/
def activeFreshSession? (db : DB) (uid : Nat) (now : Int) :
    Option MatchingSession :=
  db.matchingSessions.find? (fun s =>
    (s.user_id == uid) && (s.status == "active") &&
    decide (now - 300 ≤ s.last_active))

/-- check_bidirectional_exclusion (backend/routers/continuous_matching.py,
lines 90-141).  The JSON exclusion column is modelled as the decoded id
list; the or-str membership check in the source only compensates for mixed
string and integer JSON entries. -/
def check_bidirectional_exclusion (db : DB) (user1_id user2_id : Nat)
    (now : Int) : ExclusionStatus :=
  let user1_session := activeFreshSession? db user1_id now
  let user2_session := activeFreshSession? db user2_id now
  let user1_excludes_user2 := match user1_session with
    | some s => s.matched_user_ids.contains user2_id
    | none => false
  let user2_excludes_user1 := match user2_session with
    | some s => s.matched_user_ids.contains user1_id
    | none => false
  { user1_has_active_session := user1_session.isSome
    user2_has_active_session := user2_session.isSome
    user1_excludes_user2 := user1_excludes_user2
    user2_excludes_user1 := user2_excludes_user1 }

/-- The can_match entry of the exclusion-status dictionary (line 140). -/
def can_match (es : ExclusionStatus) : Bool :=
  !es.user1_excludes_user2 && !es.user2_excludes_user1 &&
  es.user1_has_active_session && es.user2_has_active_session

/-- select_best_match_from_candidates
(backend/routers/continuous_matching.py, lines 231-285): score every
candidate with a profile, boost session-preferred interest overlaps by 0.1
each and recent activity by 0.15 (under 5 minutes) or 0.1 (under 10
minutes), drop scores at or below 0.2, and return the head of the stable
descending sort.  Callers guarantee the user has a profile; the none case
mirrors the unreachable missing-profile path. -/
def select_best_match_from_candidates (user : User)
    (candidates : List User) (matching_session : MatchingSession)
    (now : Int) : Option User :=
  match user.profile with
  | none => none
  | some user_profile =>
    let preferred_interests := matching_session.preferred_interests
    let matches_with_scores := candidates.filterMap fun candidate =>
      match candidate.profile with
      | none => none
      | some candidate_profile =>
        let base_score := calculate_compatibility_score user_profile
          candidate_profile user.interests candidate.interests
        let base_score :=
          if preferred_interests ≠ [] then
            base_score + ((preferred_interests.toFinset ∩
              candidate.interests.toFinset).card : ℚ) * 0.1
          else base_score
        let time_since_active : Int := match candidate.last_active with
          | some la => now - la
          | none => 999 * 3600
        let base_score :=
          if time_since_active ≤ 300 then base_score + 0.15
          else if time_since_active ≤ 600 then base_score + 0.1
          else base_score
        if base_score > 0.2 then some (candidate, base_score) else none
    ((matches_with_scores.mergeSort
      (fun a b => decide (b.2 ≤ a.2))).head?).map (fun best => best.1)

/-- The active-matchers query of find_next_active_match (lines 181-195):
users outside the exclusion list, inside the age filter, marked active,
holding a matching session refreshed within 5 minutes, ordered by that
session's last_active descending, limited to 100. -/
def activeMatchersQuery (db : DB) (matched_ids : List Nat)
    (req_min_age req_max_age : Int) (now : Int) : List User :=
  let session_timeout := now - 300
  let eligible := db.users.filter fun u =>
    !(matched_ids.contains u.id) &&
    (match u.profile with
     | some p => decide (req_min_age ≤ p.age) && decide (p.age ≤ req_max_age)
     | none => false) &&
    u.is_active &&
    (db.matchingSessions.any (fun s => (s.user_id == u.id) &&
      (s.status == "active") && decide (session_timeout ≤ s.last_active)))
  let key : User → Int := fun u : User =>
    ((db.matchingSessions.find? (fun s => (s.user_id == u.id) &&
      (s.status == "active") &&
      decide (session_timeout ≤ s.last_active))).map
        (fun s => s.last_active)).getD 0
  (eligible.mergeSort (fun a b => decide (key b ≤ key a))).take 100

/-- find_next_active_match (backend/routers/continuous_matching.py, lines
143-229): build the exclusion list (session exclusions plus self,
deduplicated), query the actively polling candidates, keep those passing
the bidirectional exclusion check, pick the best by score, and re-validate
the winner before returning it. -/
def find_next_active_match (db : DB) (matching_session : MatchingSession)
    (now : Int) : Option User :=
  match findUser? db matching_session.user_id with
  | none => none
  | some user =>
    if user.profile.isNone then none
    else
      let matched_ids := (matching_session.matched_user_ids ++
        [user.id]).dedup
      let potential_candidates := activeMatchersQuery db matched_ids
        matching_session.min_age matching_session.max_age now
      let valid_candidates := potential_candidates.filter fun candidate =>
        can_match (check_bidirectional_exclusion db user.id candidate.id now)
      match select_best_match_from_candidates user valid_candidates
          matching_session now with
      | none => none
      | some selected_match =>
        if can_match (check_bidirectional_exclusion db user.id
            selected_match.id now) then some selected_match
        else none

/-- The skip-branch update of the caller's own matching-session row
(lines 686-701): clear current_match_id and append the skipped user to the
exclusion list when missing.  Rows with a different primary key are left
unchanged. -/
def skipSelfUpdate (msid other : Nat) (s : MatchingSession) :
    MatchingSession :=
  if s.id = msid then
    let mids : List Nat :=
      if other ∈ s.matched_user_ids then s.matched_user_ids
      else s.matched_user_ids ++ [other]
    { s with current_match_id := none, matched_user_ids := mids }
  else s

/-- The skip-branch update of the skipped user's matching-session row
(lines 714-737): append the caller to the exclusion list when missing. -/
def skipOtherUpdate (uid : Nat) (s : MatchingSession) : MatchingSession :=
  { s with matched_user_ids :=
      if uid ∈ s.matched_user_ids then s.matched_user_ids
      else s.matched_user_ids ++ [uid] }

/-- The other-user session filter of the skip branch (lines 705-710):
an active matching session belonging to the given user. -/
def activeOf (other : Nat) (s : MatchingSession) : Bool :=
  (s.user_id == other) && (s.status == "active")

/-- handle_continue_decision (backend/routers/continuous_matching.py,
lines 600-765).  The pairing is looked up in the Match table first and in
the InstantCallSession table otherwise; continue marks success, next
finishes the pairing, and skip additionally writes the bidirectional
exclusion: the skipped user joins the caller's exclusion list, and the
caller joins the skipped user's list when that user holds an active
matching session (found without any freshness filter).  Row updates are
keyed by the fetched row's primary key. -/
def handle_continue_decision (db : DB) (current_user_id : Nat)
    (session_id : String) (decision : String) (match_id : Nat) :
    Except Nat (DB × String) :=
  match db.matchingSessions.find? (fun s =>
      (s.session_id == session_id) && (s.user_id == current_user_id)) with
  | none => .error 404
  | some matching_session =>
    let mtch : Option MatchRow :=
      db.matchRows.find? (fun m => m.id == match_id)
    let ics : Option InstantCallSession := match mtch with
      | some _ => none
      | none => db.instantCallSessions.find? (fun cs =>
          (cs.id == match_id) &&
          ((cs.user1_id == current_user_id) ||
            (cs.user2_id == current_user_id)))
    if mtch.isNone && ics.isNone then .error 404
    else
      let other_user_id : Nat := match mtch, ics with
        | some m, _ =>
          if m.user_id = current_user_id then m.matched_user_id else m.user_id
        | none, some cs =>
          if cs.user1_id = current_user_id then cs.user2_id else cs.user1_id
        | none, none => 0
      let isMtch : MatchRow → Bool := fun m => mtch.any (fun m0 => m.id == m0.id)
      let isIcs : InstantCallSession → Bool :=
        fun cs => ics.any (fun cs0 => cs.id == cs0.id)
      if decision = "continue" then
        let db1 := { db with
          matchRows := db.matchRows.map (fun m =>
            if isMtch m then { m with status := "matched" } else m),
          matchingSessions := db.matchingSessions.map (fun s =>
            if s.id = matching_session.id then
              { s with successful_matches := s.successful_matches + 1 }
            else s) }
        .ok (db1, "matched")
      else if decision = "next" then
        let db1 := { db with
          matchRows := db.matchRows.map (fun m =>
            if isMtch m then { m with status := "passed" } else m),
          instantCallSessions := db.instantCallSessions.map (fun cs =>
            if isIcs cs then { cs with status := "completed" } else cs),
          matchingSessions := db.matchingSessions.map (fun s =>
            if s.id = matching_session.id then
              { s with current_match_id := none } else s) }
        .ok (db1, "passed")
      else if decision = "skip" then
        let db1 := { db with
          matchRows := db.matchRows.map (fun m =>
            if isMtch m then { m with status := "passed" } else m),
          instantCallSessions := db.instantCallSessions.map (fun cs =>
            if isIcs cs then { cs with status := "completed" } else cs),
          matchingSessions := db.matchingSessions.map
            (skipSelfUpdate matching_session.id other_user_id) }
        let db2 := { db1 with
          matchingSessions := (updateFirst (activeOf other_user_id)
            (skipOtherUpdate current_user_id) db1.matchingSessions) }
        .ok (db2, "skipped")
      else .error 400

/-- cleanup_stale_call_sessions (backend/routers/continuous_matching.py,
lines 44-88): cancel waiting-or-active instant call sessions older than 10
minutes whose participants no longer both hold an active matching session
refreshed within the same window. -/
def cleanup_stale_call_sessions (db : DB) (now : Int) : DB :=
  let stale_cutoff := now - 600
  { db with instantCallSessions := db.instantCallSessions.map fun cs =>
    if ((cs.status == "waiting") || (cs.status == "active")) &&
        decide (cs.created_at ≤ stale_cutoff) then
      let user1_active := db.matchingSessions.any (fun s =>
        (s.user_id == cs.user1_id) && (s.status == "active") &&
        decide (stale_cutoff ≤ s.last_active))
      let user2_active := db.matchingSessions.any (fun s =>
        (s.user_id == cs.user2_id) && (s.status == "active") &&
        decide (stale_cutoff ≤ s.last_active))
      if user1_active && user2_active then cs
      else { cs with status := "cancelled" }
    else cs }

/-- First row attaining the maximal key, as a query ordered descending by
that key returning its first row. -/
def firstMaxBy {α : Type} (key : α → Int) : List α → Option α :=
  List.foldl (fun acc x => match acc with
    | none => some x
    | some y => if key x > key y then some x else acc) none

/-- Outcome of one poll of the next-match route. -/
inductive NextMatchOutcome
  | incoming (match_id : Nat) (video_session_id : Option String)
      (matches_made successful_matches : Nat)
  | fresh (call_session_id : Nat) (video_session_id : String)
      (matches_made successful_matches : Nat)
  | noneFound (matches_made successful_matches : Nat)
deriving Repr, DecidableEq

/-- Candidate-discovery tail of get_next_match (lines 553-598): find the
next actively polling candidate and create or reuse the instant call
session with them. -/
def proceedWithDiscovery (db2 : DB) (matching_session : MatchingSession)
    (now : Int) (new_call_id : Nat) (new_uuid : String)
    (new_video_id : Nat) : DB × NextMatchOutcome :=
  match find_next_active_match db2 matching_session now with
  | none => (db2, .noneFound matching_session.matches_made
      matching_session.successful_matches)
  | some next_user =>
    let res := create_continuous_call_session db2 matching_session
      next_user.id new_call_id new_uuid new_video_id now
    (res.2, .fresh res.1.id res.1.session_id
      matching_session.matches_made matching_session.successful_matches)

/-- get_next_match (backend/routers/continuous_matching.py, lines
469-598): validate the session, reap stale call sessions, refresh
last_active, first return any recent pending incoming Match carrying a
video session, and otherwise run candidate discovery.  The
notified-matches guard reads a plain Python attribute on the ORM instance
rather than a column, so every request starts from the empty set and the
matches_made counter is incremented on every poll that sees the incoming
match. -/
def get_next_match (db : DB) (current_user_id : Nat) (session_id : String)
    (now : Int) (new_call_id : Nat) (new_uuid : String)
    (new_video_id : Nat) : Except Nat (DB × NextMatchOutcome) :=
  match db.matchingSessions.find? (fun s => (s.session_id == session_id) &&
      (s.user_id == current_user_id) && (s.status == "active")) with
  | none => .error 404
  | some matching_session =>
    let db1 := cleanup_stale_call_sessions db now
    let db2 := { db1 with matchingSessions := (db1.matchingSessions.map
      (fun s => if s.id = matching_session.id then
        { s with last_active := now } else s)) }
    let recent_time := now - 300
    let incoming := firstMaxBy (fun m => m.created_at)
      (db2.matchRows.filter (fun m =>
        ((m.matched_user_id == current_user_id) ||
          (m.user_id == current_user_id)) &&
        (m.status == "pending") && decide (recent_time ≤ m.created_at) &&
        m.video_session_id.isSome))
    match incoming with
    | some incoming_match =>
      let other_user_id := if incoming_match.user_id = current_user_id
        then incoming_match.matched_user_id else incoming_match.user_id
      match findUser? db2 other_user_id with
      | some matching_user =>
        if matching_user.profile.isSome then
          let notified : List Nat := []
          if incoming_match.id ∈ notified then
            .ok (db2, .incoming incoming_match.id
              incoming_match.video_session_id
              matching_session.matches_made
              matching_session.successful_matches)
          else
            let db3 := { db2 with matchingSessions :=
              db2.matchingSessions.map (fun s =>
                if s.id = matching_session.id then
                  { s with matches_made := s.matches_made + 1 } else s) }
            .ok (db3, .incoming incoming_match.id
              incoming_match.video_session_id
              (matching_session.matches_made + 1)
              matching_session.successful_matches)
        else
          .ok (proceedWithDiscovery db2 matching_session now new_call_id
            new_uuid new_video_id)
      | none =>
        .ok (proceedWithDiscovery db2 matching_session now new_call_id
          new_uuid new_video_id)
    | none =>
      .ok (proceedWithDiscovery db2 matching_session now new_call_id
        new_uuid new_video_id)

lemma mem_updateFirst {α : Type} (p : α → Bool) (f : α → α) (l : List α)
    (y : α) (h : y ∈ updateFirst p f l) : y ∈ l ∨ ∃ x, x ∈ l ∧ y = f x := by
  induction l with
  | nil => simp [updateFirst] at h
  | cons x xs ih =>
    rw [updateFirst] at h
    split at h
    · rcases List.mem_cons.mp h with h1 | h1
      · exact Or.inr ⟨x, List.mem_cons_self x xs, h1⟩
      · exact Or.inl (List.mem_cons_of_mem x h1)
    · rcases List.mem_cons.mp h with h1 | h1
      · exact Or.inl (h1 ▸ List.mem_cons_self x xs)
      · rcases ih h1 with h2 | ⟨z, hz, hyz⟩
        · exact Or.inl (List.mem_cons_of_mem x h2)
        · exact Or.inr ⟨z, List.mem_cons_of_mem x hz, hyz⟩

lemma find?_updateFirst {α : Type} (p : α → Bool) (f : α → α) (l : List α)
    (hf : ∀ x, p (f x) = p x) :
    (updateFirst p f l).find? p = (l.find? p).map f := by
  induction l with
  | nil => rfl
  | cons x xs ih =>
    rw [updateFirst]
    cases hpx : p x with
    | true =>
      rw [if_pos rfl, List.find?_cons_of_pos _ (by rw [hf]; exact hpx),
        List.find?_cons_of_pos _ hpx, Option.map_some']
    | false =>
      rw [if_neg (by simp), List.find?_cons_of_neg _ (by simp [hpx]),
        List.find?_cons_of_neg _ (by simp [hpx]), ih]

lemma head?_mergeSort_mem {α : Type} (l : List α) (r : α → α → Bool)
    (a : α) (h : (l.mergeSort r).head? = some a) : a ∈ l := by
  have h2 : a ∈ l.mergeSort r := by
    cases hl : l.mergeSort r with
    | nil => rw [hl] at h; exact absurd h (by simp)
    | cons x xs =>
      rw [hl] at h
      simp only [List.head?_cons, Option.some.injEq] at h
      rw [← h]
      exact List.mem_cons_self x xs
  exact List.mem_mergeSort.mp h2

lemma select_best_mem (user : User) (cands : List User)
    (ms : MatchingSession) (now : Int) (u : User)
    (h : select_best_match_from_candidates user cands ms now = some u) :
    u ∈ cands := by
  unfold select_best_match_from_candidates at h
  split at h
  · exact absurd h (by simp)
  · rw [Option.map_eq_some'] at h
    obtain ⟨best, hhead, hu⟩ := h
    have hmem := head?_mergeSort_mem _ _ _ hhead
    rw [List.mem_filterMap] at hmem
    obtain ⟨cand, hcand, hfc⟩ := hmem
    rw [← hu]
    suffices hs : best.1 = cand by rw [hs]; exact hcand
    dsimp only at hfc
    split at hfc
    · exact absurd hfc (by simp)
    · repeat' split at hfc
      all_goals
        first
          | exact congrArg Prod.fst (Option.some.inj hfc).symm
          | exact absurd hfc (by simp)

lemma activeMatchersQuery_not_excluded (db : DB) (mids : List Nat)
    (a b now : Int) (u : User)
    (h : u ∈ activeMatchersQuery db mids a b now) : u.id ∉ mids := by
  unfold activeMatchersQuery at h
  have h1 := List.take_subset _ _ h
  rw [List.mem_mergeSort] at h1
  rw [List.mem_filter] at h1
  have h2 := h1.2
  simp only [Bool.and_eq_true] at h2
  have hc := h2.1.1.1
  intro hmem
  simp [hmem] at hc

lemma find_next_active_match_not_excluded (db : DB)
    (ms : MatchingSession) (now : Int) (u : User)
    (h : find_next_active_match db ms now = some u) :
    u.id ∉ ms.matched_user_ids := by
  unfold find_next_active_match at h
  split at h
  · exact absurd h (by simp)
  · rename_i user huser
    split at h
    · exact absurd h (by simp)
    · dsimp only at h
      split at h
      · exact absurd h (by simp)
      · rename_i sel hsel
        split at h
        · have hu : sel = u := Option.some.inj h
          have hmem1 := select_best_mem _ _ _ _ _ hsel
          have hmem2 : sel ∈ activeMatchersQuery db
              ((ms.matched_user_ids ++ [user.id]).dedup)
              ms.min_age ms.max_age now := List.filter_subset' _ hmem1
          have h3 := activeMatchersQuery_not_excluded _ _ _ _ _ _ hmem2
          intro hmm
          exact h3 (by rw [hu]; simp [hmm])
        · exact absurd h (by simp)

lemma skipSelfUpdate_adds (msid other : Nat) (s : MatchingSession)
    (hid : (skipSelfUpdate msid other s).id = msid) :
    other ∈ (skipSelfUpdate msid other s).matched_user_ids := by
  unfold skipSelfUpdate at hid ⊢
  by_cases h : s.id = msid
  · rw [if_pos h] at hid ⊢
    by_cases hm : other ∈ s.matched_user_ids <;> simp [hm]
  · rw [if_neg h] at hid
    exact absurd hid h

lemma skipOtherUpdate_preserves (uid other : Nat) (s : MatchingSession)
    (h : other ∈ s.matched_user_ids) :
    other ∈ (skipOtherUpdate uid s).matched_user_ids := by
  unfold skipOtherUpdate
  by_cases hm : uid ∈ s.matched_user_ids <;> simp [hm, h]

lemma skipOtherUpdate_mem_self (uid : Nat) (s : MatchingSession) :
    uid ∈ (skipOtherUpdate uid s).matched_user_ids := by
  unfold skipOtherUpdate
  by_cases hm : uid ∈ s.matched_user_ids <;> simp [hm]

lemma activeOf_skipSelfUpdate (other msid o2 : Nat) (s : MatchingSession) :
    activeOf other (skipSelfUpdate msid o2 s) = activeOf other s := by
  unfold skipSelfUpdate activeOf
  split <;> rfl

/-- C4: a "skip" decision records the skipped partner in the caller's
exclusion list (matched_user_ids), records the caller in the skipped
partner's first active matching session whenever one exists, and a
subsequent candidate poll (find_next_active_match) never returns a user
whose id is on the polling session's exclusion list. -/
theorem handle_skip_bidirectional_exclusion
    (db : DB) (current_user_id : Nat) (session_id : String) (match_id : Nat)
    (ms : MatchingSession) (other : Nat) (db' : DB) (msg : String)
    (hms : db.matchingSessions.find? (fun s =>
      (s.session_id == session_id) && (s.user_id == current_user_id)) = some ms)
    (hother :
      (∃ m, db.matchRows.find? (fun m0 => m0.id == match_id) = some m ∧
        other = if m.user_id = current_user_id then m.matched_user_id
          else m.user_id) ∨
      (db.matchRows.find? (fun m0 => m0.id == match_id) = none ∧
        ∃ cs, db.instantCallSessions.find? (fun cs0 =>
          (cs0.id == match_id) && ((cs0.user1_id == current_user_id) ||
            (cs0.user2_id == current_user_id))) = some cs ∧
        other = if cs.user1_id = current_user_id then cs.user2_id
          else cs.user1_id))
    (hok : handle_continue_decision db current_user_id session_id "skip"
      match_id = .ok (db', msg)) :
    (∀ s' ∈ db'.matchingSessions, s'.id = ms.id →
      other ∈ s'.matched_user_ids) ∧
    (∀ t, db.matchingSessions.find? (activeOf other) = some t →
      ∃ t', db'.matchingSessions.find? (activeOf other) = some t' ∧
        current_user_id ∈ t'.matched_user_ids) ∧
    (∀ db0 ms0 now u, find_next_active_match db0 ms0 now = some u →
      u.id ∉ ms0.matched_user_ids) := by
  have hmain : db'.matchingSessions = updateFirst (activeOf other)
      (skipOtherUpdate current_user_id)
      (db.matchingSessions.map (skipSelfUpdate ms.id other)) := by
    unfold handle_continue_decision at hok
    split at hok
    · exact absurd hok (by simp)
    · rename_i ms0 hms0
      rw [hms] at hms0
      have hms0' := Option.some.inj hms0
      subst hms0'
      rcases hother with ⟨m, hm, ho⟩ | ⟨hmn, cs, hcs, ho⟩
      · rw [hm] at hok
        rw [if_neg (by simp)] at hok
        rw [if_neg (by decide), if_neg (by decide), if_pos rfl] at hok
        simp only [Except.ok.injEq, Prod.mk.injEq] at hok
        rw [← hok.1, ho]
      · rw [hmn, hcs] at hok
        rw [if_neg (by simp)] at hok
        rw [if_neg (by decide), if_neg (by decide), if_pos rfl] at hok
        simp only [Except.ok.injEq, Prod.mk.injEq] at hok
        rw [← hok.1, ho]
  refine ⟨?_, ?_, ?_⟩
  · rw [hmain]
    intro s' hs' hid
    rcases mem_updateFirst _ _ _ _ hs' with h1 | ⟨x, hx, hyx⟩
    · rcases List.mem_map.mp h1 with ⟨z, _, hzy⟩
      subst hzy
      exact skipSelfUpdate_adds ms.id other z hid
    · rcases List.mem_map.mp hx with ⟨z, _, hzx⟩
      subst hyx
      subst hzx
      exact skipOtherUpdate_preserves _ _ _
        (skipSelfUpdate_adds ms.id other z hid)
  · intro t ht
    rw [hmain, find?_updateFirst (activeOf other)
      (skipOtherUpdate current_user_id)
      (db.matchingSessions.map (skipSelfUpdate ms.id other)) (fun x => rfl),
      find?_map_congr _ _ _ (activeOf_skipSelfUpdate other ms.id other), ht]
    exact ⟨_, rfl, skipOtherUpdate_mem_self _ _⟩
  · exact fun db0 ms0 now u h =>
      find_next_active_match_not_excluded db0 ms0 now u h

/-- Concrete data for the C4 witness: user 1 skips user 2 after instant
call session 50 while both hold active matching sessions. -/
def msC4 : MatchingSession :=
  { id := 1, session_id := "ms-1", user_id := 1, status := "active",
    current_match_id := some 50, matches_made := 1, successful_matches := 0,
    min_age := 18, max_age := 99, preferred_interests := [],
    matched_user_ids := [], started_at := 0, ended_at := none,
    last_active := 100 }

def msC4b : MatchingSession :=
  { id := 2, session_id := "ms-2", user_id := 2, status := "active",
    current_match_id := some 50, matches_made := 1, successful_matches := 0,
    min_age := 18, max_age := 99, preferred_interests := [],
    matched_user_ids := [], started_at := 0, ended_at := none,
    last_active := 100 }

def csC4 : InstantCallSession :=
  { id := 50, session_id := "call-50", user1_id := 1, user2_id := 2,
    status := "active", call_completed := false, user1_decision := none,
    user2_decision := none, created_at := 90 }

def dbC4 : DB :=
  { users := [], matchingSessions := [msC4, msC4b],
    instantCallSessions := [csC4], videoSessions := [], matchRows := [] }

def dbC4' : DB :=
  ((handle_continue_decision dbC4 1 "ms-1" "skip" 50).toOption.getD
    (dbC4, "")).1

/-- Witness for C4: evaluating the skip decision of user 1 against user 2
on the concrete database. -/
theorem handle_skip_bidirectional_exclusion_witness :
    (∀ s' ∈ dbC4'.matchingSessions, s'.id = 1 →
      2 ∈ s'.matched_user_ids) ∧
    (∀ t, dbC4.matchingSessions.find? (activeOf 2) = some t →
      ∃ t', dbC4'.matchingSessions.find? (activeOf 2) = some t' ∧
        1 ∈ t'.matched_user_ids) ∧
    (∀ db0 ms0 now u, find_next_active_match db0 ms0 now = some u →
      u.id ∉ ms0.matched_user_ids) :=
  handle_skip_bidirectional_exclusion dbC4 1 "ms-1" 50 msC4 2 dbC4' "skipped"
    (by rfl) (Or.inr ⟨rfl, csC4, rfl, rfl⟩) (by rfl)

/-- Concrete data for C5: user 2's poll has already created a pending
Match row 77 toward user 1 carrying a video session; user 1 then polls
twice. -/
def profC5 : Profile :=
  { name := "a", age := 25, extroversion := 5, openness := 5,
    conscientiousness := 5, agreeableness := 5, neuroticism := 5,
    looking_for := "serious", min_age := 18, max_age := 99 }

def usrC5a : User :=
  { id := 1, is_active := true, last_active := some 1000,
    profile := some profC5, interests := [] }

def usrC5b : User :=
  { id := 2, is_active := true, last_active := some 1000,
    profile := some profC5, interests := [] }

def msC5 : MatchingSession :=
  { id := 5, session_id := "ms-5", user_id := 1, status := "active",
    current_match_id := none, matches_made := 0, successful_matches := 0,
    min_age := 18, max_age := 99, preferred_interests := [],
    matched_user_ids := [], started_at := 0, ended_at := none,
    last_active := 1000 }

def matchC5 : MatchRow :=
  { id := 77, user_id := 2, matched_user_id := 1, status := "pending",
    compatibility_score := 1, video_session_id := some "vs-77",
    call_completed := false, user_decision := none,
    matched_user_decision := none, created_at := 950 }

def dbC5 : DB :=
  { users := [usrC5a, usrC5b], matchingSessions := [msC5],
    instantCallSessions := [], videoSessions := [], matchRows := [matchC5] }

def dbC5a : DB :=
  ((get_next_match dbC5 1 "ms-5" 1000 900 "call-a" 900).toOption.getD
    (dbC5, NextMatchOutcome.noneFound 0 0)).1

def dbC5b : DB :=
  ((get_next_match dbC5a 1 "ms-5" 1000 901 "call-b" 901).toOption.getD
    (dbC5, NextMatchOutcome.noneFound 0 0)).1

/-- C5: the incoming-match branch of get_next_match is not idempotent.
The dedup guard reads a transient attribute that every request recreates
empty, so two consecutive polls by user 1 both return the same pending
incoming match 77 and each increments matches_made: after the second poll
the session's counter reads 2 although only one pairing exists. -/
theorem get_next_match_double_counts :
    get_next_match dbC5 1 "ms-5" 1000 900 "call-a" 900 =
      .ok (dbC5a, .incoming 77 (some "vs-77") 1 0) ∧
    get_next_match dbC5a 1 "ms-5" 1000 901 "call-b" 901 =
      .ok (dbC5b, .incoming 77 (some "vs-77") 2 0) ∧
    dbC5b.matchingSessions.map (fun s => s.matches_made) = [2] ∧
    dbC5b.matchRows.map (fun m => m.id) = [77] :=
  ⟨rfl, rfl, rfl, rfl⟩

/-- C10: create_continuous_call_session leaves the MatchingSession table
entirely unchanged - the code that would append the partner to
matched_user_ids and refresh last_active sits after its return statements
and is dead - and the continue and next decisions preserve every
session's matched_user_ids, so within an episode only a skip decision
grows an exclusion list. -/
theorem create_continuous_call_session_frame
    (db : DB) (ms : MatchingSession) (mid ncid : Nat) (uuid : String)
    (nvid : Nat) (now : Int) :
    ((create_continuous_call_session db ms mid ncid uuid nvid
      now).2).matchingSessions = db.matchingSessions ∧
    (∀ uid sid d mid2 db' msg, (d = "continue" ∨ d = "next") →
      handle_continue_decision db uid sid d mid2 = .ok (db', msg) →
      db'.matchingSessions.map (fun s => s.matched_user_ids) =
        db.matchingSessions.map (fun s => s.matched_user_ids)) := by
  constructor
  · unfold create_continuous_call_session
    dsimp only
    split <;> rfl
  · intro uid sid d mid2 db' msg hd hok
    unfold handle_continue_decision at hok
    split at hok
    · exact absurd hok (by simp)
    · rename_i ms0 hms0
      dsimp only at hok
      rcases hd with hd | hd
      · subst hd
        rw [if_pos rfl] at hok
        split at hok
        · exact absurd hok (by simp)
        · simp only [Except.ok.injEq, Prod.mk.injEq] at hok
          obtain ⟨hdb, -⟩ := hok
          subst hdb
          dsimp only
          rw [List.map_map]
          apply List.map_congr_left
          intro s _
          simp only [Function.comp_def]
          split <;> rfl
      · subst hd
        rw [if_neg (show ¬("next" : String) = "continue" by decide),
          if_pos rfl] at hok
        split at hok
        · exact absurd hok (by simp)
        · simp only [Except.ok.injEq, Prod.mk.injEq] at hok
          obtain ⟨hdb, -⟩ := hok
          subst hdb
          dsimp only
          rw [List.map_map]
          apply List.map_congr_left
          intro s _
          simp only [Function.comp_def]
          split <;> rfl

/-- Concrete data for the C10 witness: user 1 takes the next decision on
instant call session 80. -/
def msC10 : MatchingSession :=
  { id := 9, session_id := "ms-9", user_id := 1, status := "active",
    current_match_id := some 80, matches_made := 2, successful_matches := 1,
    min_age := 18, max_age := 99, preferred_interests := [],
    matched_user_ids := [3], started_at := 0, ended_at := none,
    last_active := 100 }

def csC10 : InstantCallSession :=
  { id := 80, session_id := "call-80", user1_id := 1, user2_id := 2,
    status := "active", call_completed := false, user1_decision := none,
    user2_decision := none, created_at := 90 }

def dbC10 : DB :=
  { users := [], matchingSessions := [msC10],
    instantCallSessions := [csC10], videoSessions := [], matchRows := [] }

def dbC10' : DB :=
  ((handle_continue_decision dbC10 1 "ms-9" "next" 80).toOption.getD
    (dbC10, "")).1

/-- Witness for C10 on the concrete database: a fresh call session
between users 1 and 2 and a next decision both leave the exclusion data
unchanged. -/
theorem create_continuous_call_session_frame_witness :
    ((create_continuous_call_session dbC10 msC10 2 60 "call-60" 60
      1000).2).matchingSessions = dbC10.matchingSessions ∧
    dbC10'.matchingSessions.map (fun s => s.matched_user_ids) =
      dbC10.matchingSessions.map (fun s => s.matched_user_ids) :=
  ⟨(create_continuous_call_session_frame dbC10 msC10 2 60 "call-60" 60
      1000).1,
   (create_continuous_call_session_frame dbC10 msC10 2 60 "call-60" 60
      1000).2 1 "ms-9" "next" 80 dbC10' "passed" (Or.inr rfl) (by rfl)⟩

end DatingApp
